import Mathlib

/-!
Shallow embedding of the orchestration core of the ai-website-builder
repository, covering `agents/base.py` (`BaseAgent.run`) and
`orchestrator/pipeline.py` (`BuildPipeline.run`), together with theorems
settling the behavioural claims about retry/validation, telemetry
aggregation, the corrective (auto-fix) loop, stage status reporting and
error containment.

Python dynamic values are modelled by the inductive `PyVal`; Python
exceptions by `Except String`; monetary cost and latency (Python floats
that are only ever added) by `ℚ`.  The external language-model provider
and each agent invocation are oracles supplied through an environment
record, indexed by attempt / loop iteration where the code makes several
calls.  Every run additionally produces an observable trace (provider
calls with the prompt actually sent, back-off sleeps, progress-callback
invocations, stage-status updates), which the temporal claims are stated
against.
-/

namespace AIWB

/-- A Python-style dynamic value (the subset the pipeline manipulates). -/
inductive PyVal where
  | none : PyVal
  | bool : Bool → PyVal
  | int : Int → PyVal
  | str : String → PyVal
  | list : List PyVal → PyVal
  | dict : List (String × PyVal) → PyVal

instance : Inhabited PyVal := ⟨PyVal.none⟩

/-- Python dict lookup with a default (`dict.get(k, dflt)` body). -/
def pyDictGet (kvs : List (String × PyVal)) (k : String) (dflt : PyVal) : PyVal :=
  match kvs.find? (fun kv => kv.1 == k) with
  | some kv => kv.2
  | Option.none => dflt

/-- Python attribute-style `.get(key, default)`: only dicts have it, every
other value raises `AttributeError`. -/
def PyVal.get : PyVal → String → PyVal → Except String PyVal
  | .dict kvs, k, dflt => .ok (pyDictGet kvs k dflt)
  | _, _, _ => .error "AttributeError: object has no attribute get"

/-- Python subscript `v[key]` with a string key: dicts look the key up and
raise `KeyError` when absent; every other value raises `TypeError`. -/
def PyVal.sub : PyVal → String → Except String PyVal
  | .dict kvs, k =>
    match kvs.find? (fun kv => kv.1 == k) with
    | some kv => .ok kv.2
    | Option.none => .error ("KeyError: " ++ k)
  | _, _ => .error "TypeError: value is not subscriptable by a string key"

/-- Python truthiness of a value (`if v:`). -/
def PyVal.truthy : PyVal → Bool
  | .none => false
  | .bool b => b
  | .int n => n != 0
  | .str s => !s.isEmpty
  | .list xs => !xs.isEmpty
  | .dict kvs => !kvs.isEmpty

/-- Python `v == "s"` for a string literal: only a str with equal content
compares equal. -/
def PyVal.eqStr : PyVal → String → Bool
  | .str s, t => s == t
  | _, _ => false

/-- Python `v.upper()`: defined on str, `AttributeError` otherwise.
(Upper-casing is written character-wise so that it computes by
reduction; it agrees with `String.toUpper`.) -/
def PyVal.upper : PyVal → Except String String
  | .str s => .ok (String.mk (s.data.map Char.toUpper))
  | _ => .error "AttributeError: object has no attribute upper"

/-- Rendering of a value inside an f-string (`str(v)`).  The container
cases are abbreviated placeholders: no claim inspects the rendering of a
non-string value, only that the prompt is built from it. -/
def PyVal.toStr : PyVal → String
  | .none => "None"
  | .bool b => if b then "True" else "False"
  | .int n => toString n
  | .str s => s
  | .list _ => "<list>"
  | .dict _ => "<dict>"

/-- Python iteration `for x in v`: lists yield their elements, strings
their characters, dicts their keys; other values raise `TypeError`. -/
def pyIter : PyVal → Except String (List PyVal)
  | .list xs => .ok xs
  | .str s => .ok (s.data.map (fun c => .str (String.mk [c])))
  | .dict kvs => .ok (kvs.map (fun kv => .str kv.1))
  | _ => .error "TypeError: object is not iterable"

/-! ## Provider and agent result data (`providers/base_provider.py`, `agents/base.py`) -/

/-- `ProviderResponse` from `providers/base_provider.py`. -/
structure ProviderResponse where
  text : String
  model : String := ""
  provider : String := ""
  input_tokens : Nat := 0
  output_tokens : Nat := 0
  cost_usd : ℚ := 0
  latency_ms : ℚ := 0

/-- `AgentResult` from `agents/base.py`. -/
structure AgentResult where
  agent_name : String
  raw_text : String
  parsed_output : PyVal := .none
  success : Bool := true
  error : Option String := Option.none
  attempts : Nat := 1
  total_input_tokens : Nat := 0
  total_output_tokens : Nat := 0
  total_cost_usd : ℚ := 0
  total_latency_ms : ℚ := 0

/-- The role-specific behaviour an agent subclass plugs into
`BaseAgent.run`: its name, `parse_output` (which may raise) and
`validate_output`. -/
structure AgentBehavior where
  name : String
  parse : String → Except String PyVal
  validate : PyVal → Bool × String

/-- Oracle for the remote collaborator inside one `BaseAgent.run` call:
the result of `self.provider.generate` on each attempt (1-based), either
a response or a raised exception. -/
structure AgentRunEnv where
  provider : Nat → Except String ProviderResponse

/-- Observable events of one `BaseAgent.run` call. -/
inductive AEvent where
  | progress : String → AEvent
  | sent : Nat → String → AEvent
  | slept : Nat → AEvent

/-- Accumulated usage totals inside `BaseAgent.run`. -/
structure Totals where
  input_tokens : Nat := 0
  output_tokens : Nat := 0
  cost : ℚ := 0
  latency : ℚ := 0

/-- Add one provider response to the running totals (the four `+=`
statements after the provider call). -/
def Totals.add (t : Totals) (r : ProviderResponse) : Totals :=
  { input_tokens := t.input_tokens + r.input_tokens
    output_tokens := t.output_tokens + r.output_tokens
    cost := t.cost + r.cost_usd
    latency := t.latency + r.latency_ms }

/-- Parse with graceful fallback: on a parser exception the raw text is
used as the structured value (`except` branch around `parse_output`). -/
def parsedFallback (A : AgentBehavior) (text : String) : PyVal :=
  match A.parse text with
  | .ok v => v
  | .error _ => .str text

/-- The corrective-feedback augmentation of the user prompt after a
validation failure (the f-string at the retry site). -/
def feedbackAugment (user_prompt error_msg : String) : String :=
  user_prompt ++ "\n\nCRITICAL: Your previous attempt had this issue: " ++ error_msg ++
    "\nPlease fix this and try again. Follow the instructions exactly."

/-- The `AgentResult` built when the attempt loop exhausts with the last
attempt having raised (the final `return` of `BaseAgent.run`). -/
def allFailedResult (A : AgentBehavior) (max_retries : Nat) (tot : Totals)
    (last_error : String) : AgentResult :=
  { agent_name := A.name
    raw_text := ""
    parsed_output := .none
    success := false
    error := some ("All " ++ toString max_retries ++ " attempts failed. Last error: " ++ last_error)
    attempts := max_retries
    total_input_tokens := tot.input_tokens
    total_output_tokens := tot.output_tokens
    total_cost_usd := tot.cost
    total_latency_ms := tot.latency }

/-- One step of the attempt loop of `BaseAgent.run`.  `remaining` is the
number of attempts still allowed including the current one, so the Python
guard `attempt < self.max_retries` is `remaining ≥ 2`. -/
def agentRunAux (A : AgentBehavior) (env : AgentRunEnv) (max_retries : Nat) :
    Nat → Nat → String → Totals → String → AgentResult × List AEvent
  | 0, _, _, tot, last_error => (allFailedResult A max_retries tot last_error, [])
  | remaining' + 1, attempt, user_prompt, tot, _last_error =>
    let rest : AgentResult × List AEvent :=
      match env.provider attempt with
      | .error e =>
        if remaining' > 0 then
          let (r, evs) := agentRunAux A env max_retries remaining' (attempt + 1) user_prompt tot e
          (r, AEvent.slept (min (2 ^ attempt) 8) :: evs)
        else
          (allFailedResult A max_retries tot e, [])
      | .ok response =>
        let tot := tot.add response
        let parsed := parsedFallback A response.text
        let v := A.validate parsed
        if v.1 = false then
          let last_error := "Validation failed: " ++ v.2
          if remaining' > 0 then
            let user_prompt := feedbackAugment user_prompt v.2
            let (r, evs) :=
              agentRunAux A env max_retries remaining' (attempt + 1) user_prompt tot last_error
            (r, AEvent.slept (min (2 ^ attempt) 8) :: evs)
          else
            ({ agent_name := A.name
               raw_text := response.text
               parsed_output := parsed
               success := false
               error := some last_error
               attempts := attempt
               total_input_tokens := tot.input_tokens
               total_output_tokens := tot.output_tokens
               total_cost_usd := tot.cost
               total_latency_ms := tot.latency }, [])
        else
          ({ agent_name := A.name
             raw_text := response.text
             parsed_output := parsed
             success := true
             error := Option.none
             attempts := attempt
             total_input_tokens := tot.input_tokens
             total_output_tokens := tot.output_tokens
             total_cost_usd := tot.cost
             total_latency_ms := tot.latency }, [])
    (rest.1,
      AEvent.progress ("Attempt " ++ toString attempt ++ "/" ++ toString max_retries ++ "...") ::
        AEvent.sent attempt user_prompt :: rest.2)

/-- `BaseAgent.run`: the full retry / parse / validate loop, starting from
the prompt built by `build_user_prompt`.  Returns the `AgentResult` and
the observable event trace. -/
def agentRun (A : AgentBehavior) (env : AgentRunEnv) (max_retries : Nat)
    (user_prompt : String) : AgentResult × List AEvent :=
  agentRunAux A env max_retries max_retries 1 user_prompt {} ""

/-- Number of provider calls recorded in an agent trace. -/
def sentCount : List AEvent → Nat
  | [] => 0
  | AEvent.sent _ _ :: tl => sentCount tl + 1
  | _ :: tl => sentCount tl

/-- The back-off sleeps recorded in an agent trace, in order. -/
def sleepsOf : List AEvent → List Nat
  | [] => []
  | AEvent.slept n :: tl => n :: sleepsOf tl
  | _ :: tl => sleepsOf tl

/-- The prompt of the (first) provider call with the given attempt index. -/
def sentPromptAt : List AEvent → Nat → Option String
  | [], _ => Option.none
  | AEvent.sent a p :: tl, k => if a = k then some p else sentPromptAt tl k
  | _ :: tl, k => sentPromptAt tl k

/-- Usage contributed by attempt `j`: the response metrics when the
collaborator returned, nothing when it raised. -/
def attemptUsage (env : AgentRunEnv) (j : Nat) : Totals :=
  match env.provider j with
  | .ok r => Totals.add {} r
  | .error _ => {}

/-- Pointwise sum of totals. -/
def Totals.plus (a b : Totals) : Totals :=
  { input_tokens := a.input_tokens + b.input_tokens
    output_tokens := a.output_tokens + b.output_tokens
    cost := a.cost + b.cost
    latency := a.latency + b.latency }

/-- Sum of the usage of attempts `a, a+1, …, a+len-1`. -/
def rangeUsage (env : AgentRunEnv) (a : Nat) : Nat → Totals
  | 0 => {}
  | len + 1 => Totals.plus (attemptUsage env a) (rangeUsage env (a + 1) len)

/-- Attempt `j` does not end the loop: either the collaborator raised, or
the (fallback-)parsed value failed validation. -/
def attemptFails (A : AgentBehavior) (env : AgentRunEnv) (j : Nat) : Prop :=
  match env.provider j with
  | .error _ => True
  | .ok r => (A.validate (parsedFallback A r.text)).1 = false

/-- The sleeps `min(2^attempt, 8)` performed after attempts
`attempt, attempt+1, …, attempt+len-1`. -/
def backoffSeq (attempt : Nat) : Nat → List Nat
  | 0 => []
  | len + 1 => min (2 ^ attempt) 8 :: backoffSeq (attempt + 1) len

/-- The four usage totals carried by an `AgentResult`. -/
def totalsOf (r : AgentResult) : Totals :=
  { input_tokens := r.total_input_tokens
    output_tokens := r.total_output_tokens
    cost := r.total_cost_usd
    latency := r.total_latency_ms }

/-- The same agent behaviour with the parser replaced by the graceful
fallback itself: the raw text is returned as the structured value. -/
def rawParseBehavior (A : AgentBehavior) : AgentBehavior :=
  { A with parse := fun s => .ok (.str s) }

theorem Totals.plus_empty (t : Totals) : Totals.plus t {} = t := by
  simp [Totals.plus]

theorem Totals.empty_plus (t : Totals) : Totals.plus {} t = t := by
  simp [Totals.plus]

theorem Totals.plus_add (t u : Totals) (r : ProviderResponse) :
    Totals.plus (t.add r) u = Totals.plus t (Totals.plus (Totals.add {} r) u) := by
  simp only [Totals.plus, Totals.add]
  congr 1 <;> first | omega | ring

theorem Totals.plus_assoc (a b c : Totals) :
    Totals.plus (Totals.plus a b) c = Totals.plus a (Totals.plus b c) := by
  simp only [Totals.plus]
  congr 1 <;> first | omega | ring

/-- The progress message emitted before attempt `attempt` of `N`. -/
def progressMsg (attempt N : Nat) : String :=
  "Attempt " ++ toString attempt ++ "/" ++ toString N ++ "..."

theorem agentRunAux_error_step (A : AgentBehavior) (env : AgentRunEnv) (N : Nat)
    (rem' attempt : Nat) (p : String) (tot : Totals) (le e : String)
    (hm : 0 < rem') (he : env.provider attempt = .error e) :
    agentRunAux A env N (rem' + 1) attempt p tot le
      = ((agentRunAux A env N rem' (attempt + 1) p tot e).1,
         AEvent.progress (progressMsg attempt N) ::
         AEvent.sent attempt p ::
         AEvent.slept (min (2 ^ attempt) 8) ::
         (agentRunAux A env N rem' (attempt + 1) p tot e).2) := by
  simp [agentRunAux, he, hm, progressMsg]

theorem agentRunAux_error_last (A : AgentBehavior) (env : AgentRunEnv) (N : Nat)
    (attempt : Nat) (p : String) (tot : Totals) (le e : String)
    (he : env.provider attempt = .error e) :
    agentRunAux A env N 1 attempt p tot le
      = (allFailedResult A N tot e,
         [AEvent.progress (progressMsg attempt N), AEvent.sent attempt p]) := by
  simp [agentRunAux, he, progressMsg]

theorem agentRunAux_validfail_step (A : AgentBehavior) (env : AgentRunEnv) (N : Nat)
    (rem' attempt : Nat) (p : String) (tot : Totals) (le msg : String)
    (r : ProviderResponse) (hm : 0 < rem') (he : env.provider attempt = .ok r)
    (hv : A.validate (parsedFallback A r.text) = (false, msg)) :
    agentRunAux A env N (rem' + 1) attempt p tot le
      = ((agentRunAux A env N rem' (attempt + 1) (feedbackAugment p msg) (tot.add r)
            ("Validation failed: " ++ msg)).1,
         AEvent.progress (progressMsg attempt N) ::
         AEvent.sent attempt p ::
         AEvent.slept (min (2 ^ attempt) 8) ::
         (agentRunAux A env N rem' (attempt + 1) (feedbackAugment p msg) (tot.add r)
            ("Validation failed: " ++ msg)).2) := by
  simp [agentRunAux, he, hm, hv, progressMsg]

theorem agentRunAux_validfail_last (A : AgentBehavior) (env : AgentRunEnv) (N : Nat)
    (attempt : Nat) (p : String) (tot : Totals) (le msg : String)
    (r : ProviderResponse) (he : env.provider attempt = .ok r)
    (hv : A.validate (parsedFallback A r.text) = (false, msg)) :
    agentRunAux A env N 1 attempt p tot le
      = ({ agent_name := A.name
           raw_text := r.text
           parsed_output := parsedFallback A r.text
           success := false
           error := some ("Validation failed: " ++ msg)
           attempts := attempt
           total_input_tokens := (tot.add r).input_tokens
           total_output_tokens := (tot.add r).output_tokens
           total_cost_usd := (tot.add r).cost
           total_latency_ms := (tot.add r).latency },
         [AEvent.progress (progressMsg attempt N), AEvent.sent attempt p]) := by
  simp [agentRunAux, he, hv, progressMsg]

theorem agentRunAux_ok (A : AgentBehavior) (env : AgentRunEnv) (N : Nat)
    (rem' attempt : Nat) (p : String) (tot : Totals) (le : String)
    (r : ProviderResponse) (he : env.provider attempt = .ok r)
    (hv : (A.validate (parsedFallback A r.text)).1 = true) :
    agentRunAux A env N (rem' + 1) attempt p tot le
      = ({ agent_name := A.name
           raw_text := r.text
           parsed_output := parsedFallback A r.text
           success := true
           error := Option.none
           attempts := attempt
           total_input_tokens := (tot.add r).input_tokens
           total_output_tokens := (tot.add r).output_tokens
           total_cost_usd := (tot.add r).cost
           total_latency_ms := (tot.add r).latency },
         [AEvent.progress (progressMsg attempt N), AEvent.sent attempt p]) := by
  simp [agentRunAux, he, hv, progressMsg]

theorem sentCount_progress (msg : String) (tl : List AEvent) :
    sentCount (AEvent.progress msg :: tl) = sentCount tl := rfl

theorem sentCount_sent (a : Nat) (p : String) (tl : List AEvent) :
    sentCount (AEvent.sent a p :: tl) = sentCount tl + 1 := rfl

theorem sentCount_slept (n : Nat) (tl : List AEvent) :
    sentCount (AEvent.slept n :: tl) = sentCount tl := rfl

theorem sleepsOf_progress (msg : String) (tl : List AEvent) :
    sleepsOf (AEvent.progress msg :: tl) = sleepsOf tl := rfl

theorem sleepsOf_sent (a : Nat) (p : String) (tl : List AEvent) :
    sleepsOf (AEvent.sent a p :: tl) = sleepsOf tl := rfl

theorem sleepsOf_slept (n : Nat) (tl : List AEvent) :
    sleepsOf (AEvent.slept n :: tl) = n :: sleepsOf tl := rfl

theorem agentRunAux_allFail (A : AgentBehavior) (env : AgentRunEnv) (N : Nat)
    (errs : Nat → String) (hfail : ∀ k, env.provider k = .error (errs k)) :
    ∀ m attempt p tot le,
      (agentRunAux A env N (m + 1) attempt p tot le).1
        = allFailedResult A N tot (errs (attempt + m)) ∧
      sentCount (agentRunAux A env N (m + 1) attempt p tot le).2 = m + 1 ∧
      sleepsOf (agentRunAux A env N (m + 1) attempt p tot le).2 = backoffSeq attempt m := by
  intro m
  induction m with
  | zero =>
    intro attempt p tot le
    rw [agentRunAux_error_last A env N attempt p tot le (errs attempt) (hfail attempt)]
    refine ⟨rfl, rfl, rfl⟩
  | succ m ih =>
    intro attempt p tot le
    have h := ih (attempt + 1) p tot (errs attempt)
    rw [agentRunAux_error_step A env N (m + 1) attempt p tot le (errs attempt)
      (Nat.succ_pos m) (hfail attempt)]
    have e1 : attempt + 1 + m = attempt + (m + 1) := by omega
    refine ⟨?_, ?_, ?_⟩
    · rw [h.1, e1]
    · rw [sentCount_progress, sentCount_sent, sentCount_slept, h.2.1]
    · rw [sleepsOf_progress, sleepsOf_sent, sleepsOf_slept, h.2.2]; rfl

/-- C3: collaborator failing on every attempt. -/
theorem agent_attempt_bound (A : AgentBehavior) (env : AgentRunEnv) (N : Nat)
    (p : String) (errs : Nat → String) (hN : 1 ≤ N)
    (hfail : ∀ k, env.provider k = .error (errs k)) :
    (agentRun A env N p).1.success = false ∧
    (agentRun A env N p).1.attempts = N ∧
    (agentRun A env N p).1.error
      = some ("All " ++ toString N ++ " attempts failed. Last error: " ++ errs N) ∧
    sentCount (agentRun A env N p).2 = N ∧
    sleepsOf (agentRun A env N p).2 = backoffSeq 1 (N - 1) := by
  obtain ⟨m, rfl⟩ : ∃ m, N = m + 1 := ⟨N - 1, by omega⟩
  have h := agentRunAux_allFail A env (m + 1) errs hfail m 1 p {} ""
  unfold agentRun
  rw [h.1]
  have h1 : 1 + m = m + 1 := by omega
  rw [h1] at h ⊢
  refine ⟨rfl, rfl, by simp [allFailedResult], by rw [h.2.1], by rw [h.2.2]; simp⟩

theorem Totals.add_eq_plus (t : Totals) (r : ProviderResponse) :
    t.add r = Totals.plus t (Totals.add {} r) := by
  simp only [Totals.add, Totals.plus]
  congr 1 <;> first | omega | ring

theorem agentRunAux_success (A : AgentBehavior) (env : AgentRunEnv) (N : Nat)
    (k : Nat) (resp : ProviderResponse)
    (hk : env.provider k = .ok resp)
    (hvk : (A.validate (parsedFallback A resp.text)).1 = true) :
    ∀ m attempt p tot le, attempt ≤ k → k ≤ attempt + m →
      (∀ j, attempt ≤ j → j < k → attemptFails A env j) →
      (agentRunAux A env N (m + 1) attempt p tot le).1.success = true ∧
      (agentRunAux A env N (m + 1) attempt p tot le).1.attempts = k ∧
      sentCount (agentRunAux A env N (m + 1) attempt p tot le).2 = k - attempt + 1 ∧
      totalsOf (agentRunAux A env N (m + 1) attempt p tot le).1
        = Totals.plus tot (rangeUsage env attempt (k - attempt + 1)) := by
  intro m
  induction m with
  | zero =>
    intro attempt p tot le h1 h2 _hfs
    obtain rfl : attempt = k := by omega
    rw [agentRunAux_ok A env N 0 attempt p tot le resp hk hvk]
    have hr : attempt - attempt + 1 = 1 := by omega
    rw [hr]
    refine ⟨rfl, rfl, rfl, ?_⟩
    show tot.add resp = Totals.plus tot (rangeUsage env attempt 1)
    have hu : attemptUsage env attempt = Totals.add {} resp := by
      simp [attemptUsage, hk]
    show tot.add resp = Totals.plus tot (Totals.plus (attemptUsage env attempt) (rangeUsage env (attempt + 1) 0))
    rw [hu]
    show tot.add resp = Totals.plus tot (Totals.plus (Totals.add {} resp) {})
    rw [Totals.plus_empty, Totals.add_eq_plus]
  | succ m ih =>
    intro attempt p tot le h1 h2 hfs
    by_cases hak : attempt = k
    · subst hak
      rw [agentRunAux_ok A env N (m + 1) attempt p tot le resp hk hvk]
      have hr : attempt - attempt + 1 = 1 := by omega
      rw [hr]
      refine ⟨rfl, rfl, rfl, ?_⟩
      show tot.add resp = Totals.plus tot (rangeUsage env attempt 1)
      have hu : attemptUsage env attempt = Totals.add {} resp := by
        simp [attemptUsage, hk]
      show tot.add resp = Totals.plus tot (Totals.plus (attemptUsage env attempt) (rangeUsage env (attempt + 1) 0))
      rw [hu]
      show tot.add resp = Totals.plus tot (Totals.plus (Totals.add {} resp) {})
      rw [Totals.plus_empty, Totals.add_eq_plus]
    · have hlt : attempt < k := by omega
      have h0 := hfs attempt (Nat.le_refl attempt) hlt
      have hd : k - attempt + 1 = (k - (attempt + 1) + 1) + 1 := by omega
      cases hpa : env.provider attempt with
      | error e =>
        rw [agentRunAux_error_step A env N (m + 1) attempt p tot le e (Nat.succ_pos m) hpa]
        have h := ih (attempt + 1) p tot e (by omega) (by omega)
          (fun j hj1 hj2 => hfs j (by omega) hj2)
        refine ⟨h.1, h.2.1, ?_, ?_⟩
        · rw [sentCount_progress, sentCount_sent, sentCount_slept, h.2.2.1]
          omega
        · rw [h.2.2.2, hd]
          show Totals.plus tot (rangeUsage env (attempt + 1) (k - (attempt + 1) + 1))
            = Totals.plus tot (Totals.plus (attemptUsage env attempt)
                (rangeUsage env (attempt + 1) (k - (attempt + 1) + 1)))
          have hu : attemptUsage env attempt = {} := by simp [attemptUsage, hpa]
          rw [hu, Totals.empty_plus]
      | ok r =>
        have hvf : (A.validate (parsedFallback A r.text)).1 = false := by
          have := h0
          rw [attemptFails, hpa] at this
          exact this
        have hveq : A.validate (parsedFallback A r.text)
            = (false, (A.validate (parsedFallback A r.text)).2) := by
          rw [← hvf]
        rw [agentRunAux_validfail_step A env N (m + 1) attempt p tot le
          (A.validate (parsedFallback A r.text)).2 r (Nat.succ_pos m) hpa hveq]
        have h := ih (attempt + 1)
          (feedbackAugment p (A.validate (parsedFallback A r.text)).2) (tot.add r)
          ("Validation failed: " ++ (A.validate (parsedFallback A r.text)).2)
          (by omega) (by omega) (fun j hj1 hj2 => hfs j (by omega) hj2)
        refine ⟨h.1, h.2.1, ?_, ?_⟩
        · rw [sentCount_progress, sentCount_sent, sentCount_slept, h.2.2.1]
          omega
        · rw [h.2.2.2, hd]
          show Totals.plus (tot.add r) (rangeUsage env (attempt + 1) (k - (attempt + 1) + 1))
            = Totals.plus tot (Totals.plus (attemptUsage env attempt)
                (rangeUsage env (attempt + 1) (k - (attempt + 1) + 1)))
          have hu : attemptUsage env attempt = Totals.add {} r := by
            simp [attemptUsage, hpa]
          rw [hu, Totals.plus_add]

/-- C4: success on attempt `k ≤ N` after earlier failing attempts. -/
theorem agent_early_success (A : AgentBehavior) (env : AgentRunEnv) (N k : Nat)
    (resp : ProviderResponse) (p : String)
    (hk1 : 1 ≤ k) (hkN : k ≤ N)
    (hfails : ∀ j, 1 ≤ j → j < k → attemptFails A env j)
    (hok : env.provider k = .ok resp)
    (hval : (A.validate (parsedFallback A resp.text)).1 = true) :
    (agentRun A env N p).1.success = true ∧
    (agentRun A env N p).1.attempts = k ∧
    sentCount (agentRun A env N p).2 = k ∧
    totalsOf (agentRun A env N p).1 = rangeUsage env 1 k := by
  obtain ⟨m, rfl⟩ : ∃ m, N = m + 1 := ⟨N - 1, by omega⟩
  have h := agentRunAux_success A env (m + 1) k resp hok hval m 1 p {} ""
    (by omega) (by omega) hfails
  have hkk : k - 1 + 1 = k := by omega
  rw [hkk] at h
  unfold agentRun
  exact ⟨h.1, h.2.1, h.2.2.1, by rw [h.2.2.2, Totals.empty_plus]⟩

theorem sentPromptAt_progress (msg : String) (tl : List AEvent) (k : Nat) :
    sentPromptAt (AEvent.progress msg :: tl) k = sentPromptAt tl k := rfl

theorem sentPromptAt_slept (n : Nat) (tl : List AEvent) (k : Nat) :
    sentPromptAt (AEvent.slept n :: tl) k = sentPromptAt tl k := rfl

theorem sentPromptAt_sent_ne (a : Nat) (p : String) (tl : List AEvent) (k : Nat)
    (h : a ≠ k) : sentPromptAt (AEvent.sent a p :: tl) k = sentPromptAt tl k := by
  simp [sentPromptAt, h]

theorem sentPromptAt_sent_eq (a : Nat) (p : String) (tl : List AEvent) :
    sentPromptAt (AEvent.sent a p :: tl) a = some p := by
  simp [sentPromptAt]

theorem agentRunAux_head (A : AgentBehavior) (env : AgentRunEnv) (N m attempt : Nat)
    (p : String) (tot : Totals) (le : String) :
    ∃ rest, (agentRunAux A env N (m + 1) attempt p tot le).2
      = AEvent.progress (progressMsg attempt N) :: AEvent.sent attempt p :: rest :=
  ⟨_, rfl⟩

/-- C5: a validation failure on attempt 1 feeds the reason verbatim into
the prompt sent on attempt 2. -/
theorem agent_feedback_retry (A : AgentBehavior) (env : AgentRunEnv) (N : Nat)
    (p R : String) (r1 : ProviderResponse)
    (hN : 2 ≤ N)
    (h1 : env.provider 1 = .ok r1)
    (hv : A.validate (parsedFallback A r1.text) = (false, R)) :
    sentPromptAt (agentRun A env N p).2 2 = some (feedbackAugment p R) ∧
    ∃ a b, feedbackAugment p R = a ++ (R ++ b) := by
  obtain ⟨m, rfl⟩ : ∃ m, N = m + 2 := ⟨N - 2, by omega⟩
  unfold agentRun
  rw [show m + 2 = (m + 1) + 1 from rfl,
    agentRunAux_validfail_step A env (m + 1 + 1) (m + 1) 1 p {} "" R r1 (Nat.succ_pos m) h1 hv]
  obtain ⟨rest, hrest⟩ := agentRunAux_head A env (m + 1 + 1) m 2
    (feedbackAugment p R) (Totals.add {} r1) ("Validation failed: " ++ R)
  constructor
  · rw [sentPromptAt_progress, sentPromptAt_sent_ne 1 p _ 2 (by omega), sentPromptAt_slept,
      hrest, sentPromptAt_progress, sentPromptAt_sent_eq]
  · refine ⟨p ++ "\n\nCRITICAL: Your previous attempt had this issue: ",
      "\nPlease fix this and try again. Follow the instructions exactly.", ?_⟩
    unfold feedbackAugment
    rw [String.append_assoc]

theorem parsedFallback_raw (A : AgentBehavior) (t : String) :
    parsedFallback (rawParseBehavior A) t = .str t := rfl

theorem parsedFallback_of_parseFail (A : AgentBehavior)
    (hp : ∀ s, ∃ e, A.parse s = .error e) (t : String) :
    parsedFallback A t = .str t := by
  obtain ⟨e, he⟩ := hp t
  simp [parsedFallback, he]

theorem agentRunAux_parse_fallback (A : AgentBehavior) (env : AgentRunEnv) (N : Nat)
    (hp : ∀ s, ∃ e, A.parse s = .error e) :
    ∀ rem attempt p tot le,
      agentRunAux A env N rem attempt p tot le
        = agentRunAux (rawParseBehavior A) env N rem attempt p tot le := by
  have pf : ∀ t, parsedFallback A t = parsedFallback (rawParseBehavior A) t := fun t => by
    rw [parsedFallback_of_parseFail A hp t, parsedFallback_raw]
  intro rem
  induction rem with
  | zero =>
    intro attempt p tot le
    simp [agentRunAux, allFailedResult, rawParseBehavior]
  | succ m ih =>
    intro attempt p tot le
    cases hpa : env.provider attempt with
    | error e =>
      rcases m with _ | m'
      · rw [agentRunAux_error_last A env N attempt p tot le e hpa,
          agentRunAux_error_last (rawParseBehavior A) env N attempt p tot le e hpa]
        simp [allFailedResult, rawParseBehavior]
      · rw [agentRunAux_error_step A env N (m' + 1) attempt p tot le e (Nat.succ_pos m') hpa,
          agentRunAux_error_step (rawParseBehavior A) env N (m' + 1) attempt p tot le e
            (Nat.succ_pos m') hpa, ih (attempt + 1) p tot e]
    | ok r =>
      cases hb : (A.validate (parsedFallback A r.text)).1 with
      | true =>
        have hbr : ((rawParseBehavior A).validate (parsedFallback (rawParseBehavior A) r.text)).1
            = true := by
          rw [show (rawParseBehavior A).validate = A.validate from rfl, ← pf r.text]
          exact hb
        rw [agentRunAux_ok A env N m attempt p tot le r hpa hb,
          agentRunAux_ok (rawParseBehavior A) env N m attempt p tot le r hpa hbr]
        simp [rawParseBehavior, pf r.text]
      | false =>
        have hveq : A.validate (parsedFallback A r.text)
            = (false, (A.validate (parsedFallback A r.text)).2) := by rw [← hb]
        have hveqr : (rawParseBehavior A).validate (parsedFallback (rawParseBehavior A) r.text)
            = (false, (A.validate (parsedFallback A r.text)).2) := by
          rw [show (rawParseBehavior A).validate = A.validate from rfl, ← pf r.text]
          exact hveq
        rcases m with _ | m'
        · rw [agentRunAux_validfail_last A env N attempt p tot le
            ((A.validate (parsedFallback A r.text)).2) r hpa hveq,
            agentRunAux_validfail_last (rawParseBehavior A) env N attempt p tot le
            ((A.validate (parsedFallback A r.text)).2) r hpa hveqr]
          simp [rawParseBehavior, pf r.text]
        · rw [agentRunAux_validfail_step A env N (m' + 1) attempt p tot le
            ((A.validate (parsedFallback A r.text)).2) r (Nat.succ_pos m') hpa hveq,
            agentRunAux_validfail_step (rawParseBehavior A) env N (m' + 1) attempt p tot le
            ((A.validate (parsedFallback A r.text)).2) r (Nat.succ_pos m') hpa hveqr,
            ih (attempt + 1) (feedbackAugment p ((A.validate (parsedFallback A r.text)).2))
              (tot.add r) ("Validation failed: " ++ (A.validate (parsedFallback A r.text)).2)]

/-- C6: a raising parser never aborts the attempt — the raw text becomes
the structured value and the whole run behaves exactly as with the
raw-text parser. -/
theorem agent_parse_failure_nonfatal (A : AgentBehavior) (env : AgentRunEnv)
    (N : Nat) (p : String) (hp : ∀ s, ∃ e, A.parse s = .error e) :
    (∀ t, parsedFallback A t = .str t) ∧
    agentRun A env N p = agentRun (rawParseBehavior A) env N p := by
  refine ⟨parsedFallback_of_parseFail A hp, ?_⟩
  unfold agentRun
  exact agentRunAux_parse_fallback A env N hp N 1 p {} ""

/-! ### Concrete agent instances used by the witnesses -/

/-- A trivial agent behaviour: parser echoes the text, validator accepts. -/
def wAccept : AgentBehavior :=
  { name := "TestAgent", parse := fun s => .ok (.str s), validate := fun _ => (true, "") }

/-- A collaborator that raises on every attempt. -/
def wFailEnv : AgentRunEnv := ⟨fun _ => .error "boom"⟩

theorem agent_attempt_bound_witness :
    (agentRun wAccept wFailEnv 3 "p").1.success = false ∧
    (agentRun wAccept wFailEnv 3 "p").1.attempts = 3 ∧
    (agentRun wAccept wFailEnv 3 "p").1.error
      = some ("All " ++ toString 3 ++ " attempts failed. Last error: " ++ "boom") ∧
    sentCount (agentRun wAccept wFailEnv 3 "p").2 = 3 ∧
    sleepsOf (agentRun wAccept wFailEnv 3 "p").2 = backoffSeq 1 (3 - 1) :=
  agent_attempt_bound wAccept wFailEnv 3 "p" (fun _ => "boom") (by decide) (fun _ => rfl)

/-- A collaborator raising on attempt 1 and answering from attempt 2 on. -/
def wEnv4 : AgentRunEnv :=
  ⟨fun j => if j = 1 then .error "transient" else
    .ok { text := "ok", input_tokens := 3, output_tokens := 5, cost_usd := 1, latency_ms := 7 }⟩

theorem agent_early_success_witness :
    (agentRun wAccept wEnv4 3 "p").1.success = true ∧
    (agentRun wAccept wEnv4 3 "p").1.attempts = 2 ∧
    sentCount (agentRun wAccept wEnv4 3 "p").2 = 2 ∧
    totalsOf (agentRun wAccept wEnv4 3 "p").1 = rangeUsage wEnv4 1 2 :=
  agent_early_success wAccept wEnv4 3 2
    { text := "ok", input_tokens := 3, output_tokens := 5, cost_usd := 1, latency_ms := 7 }
    "p" (by decide) (by decide)
    (fun j hj1 hj2 => by
      have hj : j = 1 := by omega
      subst hj
      simp [attemptFails, wEnv4])
    rfl rfl

/-- A validator rejecting exactly the text "bad", with a fixed reason. -/
def wPicky : AgentBehavior :=
  { name := "TestAgent", parse := fun s => .ok (.str s),
    validate := fun v => (v.eqStr "good", "the reason R") }

/-- A collaborator answering "bad" on attempt 1 and "good" afterwards. -/
def wEnv5 : AgentRunEnv :=
  ⟨fun j => if j = 1 then .ok { text := "bad" } else .ok { text := "good" }⟩

theorem agent_feedback_retry_witness :
    sentPromptAt (agentRun wPicky wEnv5 3 "p").2 2
      = some (feedbackAugment "p" "the reason R") ∧
    ∃ a b, feedbackAugment "p" "the reason R" = a ++ ("the reason R" ++ b) :=
  agent_feedback_retry wPicky wEnv5 3 "p" "the reason R" { text := "bad" }
    (by decide) rfl (by decide)

/-- An agent whose parser raises on every input. -/
def wBadParse : AgentBehavior :=
  { name := "TestAgent", parse := fun _ => .error "parse boom",
    validate := fun _ => (true, "") }

theorem agent_parse_failure_nonfatal_witness :
    (∀ t, parsedFallback wBadParse t = .str t) ∧
    agentRun wBadParse wEnv5 2 "p" = agentRun (rawParseBehavior wBadParse) wEnv5 2 "p" :=
  agent_parse_failure_nonfatal wBadParse wEnv5 2 "p" (fun _ => ⟨"parse boom", rfl⟩)

/-! ## Pipeline data model (`orchestrator/pipeline.py`) -/

/-- `PipelineStage` from `orchestrator/pipeline.py`. -/
structure PipelineStage where
  name : String
  agent_name : String
  status : String := "waiting"
  result : Option AgentResult := Option.none
  duration_ms : ℚ := 0

/-- `PipelineResult` from `orchestrator/pipeline.py`.  `html_code`,
`strategy` and `copy` are declared as strings in the source but are
assigned the (dynamically typed) `parsed_output` of an agent, so they are
modelled as `PyVal`. -/
structure PipelineResult where
  success : Bool := false
  html_code : PyVal := .str ""
  strategy : PyVal := .str ""
  copy : PyVal := .str ""
  design_json : PyVal := .dict []
  review_report : Option PyVal := Option.none
  stages : List PipelineStage := []
  total_tokens : Nat := 0
  total_cost_usd : ℚ := 0
  total_duration_ms : ℚ := 0
  fix_iterations : Nat := 0
  error : Option String := Option.none

/-- The constructor arguments of `BuildPipeline` the run logic depends on. -/
structure PipelineConfig where
  auto_fix_enabled : Bool := true
  max_fix_iterations : Nat := 3

/-- One agent-invocation slot of a pipeline run: each `agent.run(...)`
call site is an oracle returning either an `AgentResult` or a raised
exception.  The reviewer and the corrective re-invocations of the
developer are indexed by the loop iteration.  `elapsed_ms` models the
wall-clock `time.time() - pipeline_start` read at the end of the run. -/
structure PipelineEnv where
  strat : Except String AgentResult
  copyR : Except String AgentResult
  design : Except String AgentResult
  dev : Except String AgentResult
  review : Nat → Except String AgentResult
  fix : Nat → Except String AgentResult
  seo : Except String AgentResult
  elapsed_ms : ℚ := 0

/-- The pipeline role performing an invocation. -/
inductive Role where
  | strategist
  | developer
  | reviewer : Nat → Role
  | devFix : Nat → Role
  | seo

/-- Observable events of one pipeline run: stage-status callbacks and
agent invocations (with the salient input that was passed and the
outcome).  The parallel fan-out is one event carrying both outcomes. -/
inductive PEvent where
  | update : String → String → PEvent
  | call : Role → PyVal → Except String AgentResult → PEvent
  | callPar : PyVal → Except String AgentResult → Except String AgentResult → PEvent

/-- The mutable state of one `BuildPipeline.run` activation: the `result`
object, the local `stages` list, the local `html_code`, the local
`review_result` binding (`none` models "not yet bound"), and the
observable trace. -/
structure PipeSt where
  result : PipelineResult := {}
  stages : List PipelineStage := []
  html : PyVal := .str ""
  review_result : Option AgentResult := Option.none
  trace : List PEvent := []

/-- Outcome of a piece of the `try:` body: normal fall-through, an early
`return result`, or a raised exception (about to be caught at the top
level).  Every outcome carries the state at that point. -/
inductive POut where
  | ok : PipeSt → POut
  | early : PipeSt → POut
  | exn : String → PipeSt → POut

/-- The state carried by any outcome. -/
def POut.st : POut → PipeSt
  | .ok s => s
  | .early s => s
  | .exn _ s => s

/-- Sequencing of body pieces: early returns and exceptions skip the rest
of the `try:` body. -/
def pseq (f g : PipeSt → POut) : PipeSt → POut := fun s =>
  match f s with
  | .ok s' => g s'
  | r => r

/-- `self._update_stage(name, status)`. -/
def emit (s : PipeSt) (name status : String) : PipeSt :=
  { s with trace := s.trace ++ [.update name status] }

/-- Record an agent invocation in the trace. -/
def recCall (s : PipeSt) (ev : PEvent) : PipeSt :=
  { s with trace := s.trace ++ [ev] }

/-- Rendering of `Optional[str]` inside an f-string. -/
def errStr : Option String → String
  | some e => e
  | Option.none => "None"

/-- Stage 1 (Strategist): run, halt on failure, else accumulate and mark
done. -/
def phase1 (env : PipelineEnv) (desc : String) (s : PipeSt) : POut :=
  let s := emit s "Strategist" "running"
  let s := recCall s (.call .strategist (.str desc) env.strat)
  match env.strat with
  | .error e => .exn e s
  | .ok strat_result =>
    if strat_result.success = false then
      let s := emit s "Strategist" "error"
      .early { s with result :=
        { s.result with error := some ("Strategist failed: " ++ errStr strat_result.error) } }
    else
      let s := { s with result :=
        { s.result with
          strategy := strat_result.parsed_output
          total_tokens := s.result.total_tokens
            + strat_result.total_input_tokens + strat_result.total_output_tokens
          total_cost_usd := s.result.total_cost_usd + strat_result.total_cost_usd } }
      let s := { s with stages := s.stages ++
        [{ name := "Strategist", agent_name := "Strategist", status := "done",
           result := some strat_result, duration_ms := strat_result.total_latency_ms }] }
      .ok (emit s "Strategist" "done")

/-- Stages 2 and 3 (Copywriter and Art Director, parallel fan-out): both
futures are resolved (copy first), then each failure halts; only when
both succeeded are the two outcomes accumulated. -/
def phase23 (env : PipelineEnv) (s : PipeSt) : POut :=
  let s := emit s "Copywriter" "running"
  let s := emit s "Art Director" "running"
  let s := recCall s (.callPar s.result.strategy env.copyR env.design)
  match env.copyR with
  | .error e => .exn e s
  | .ok copy_result =>
    match env.design with
    | .error e => .exn e s
    | .ok design_result =>
      if copy_result.success = false then
        let s := emit s "Copywriter" "error"
        .early { s with result :=
          { s.result with error := some ("Copywriter failed: " ++ errStr copy_result.error) } }
      else if design_result.success = false then
        let s := emit s "Art Director" "error"
        .early { s with result :=
          { s.result with error := some ("Art Director failed: " ++ errStr design_result.error) } }
      else
        let s := { s with result :=
          { s.result with
            copy := copy_result.parsed_output
            design_json := design_result.parsed_output
            total_tokens := s.result.total_tokens
              + (copy_result.total_input_tokens + copy_result.total_output_tokens
                + design_result.total_input_tokens + design_result.total_output_tokens)
            total_cost_usd := s.result.total_cost_usd
              + (copy_result.total_cost_usd + design_result.total_cost_usd) } }
        let s := { s with stages := s.stages ++
          [{ name := "Copywriter", agent_name := "Copywriter", status := "done",
             result := some copy_result, duration_ms := copy_result.total_latency_ms },
           { name := "Art Director", agent_name := "Art Director", status := "done",
             result := some design_result, duration_ms := design_result.total_latency_ms }] }
        let s := emit s "Copywriter" "done"
        .ok (emit s "Art Director" "done")

/-- Stage 4 (Developer): run, halt on failure, else bind `html_code` and
accumulate. -/
def phase4 (env : PipelineEnv) (desc : String) (s : PipeSt) : POut :=
  let s := emit s "Developer" "running"
  let s := recCall s (.call .developer (.str desc) env.dev)
  match env.dev with
  | .error e => .exn e s
  | .ok dev_result =>
    if dev_result.success = false then
      let s := emit s "Developer" "error"
      .early { s with result :=
        { s.result with error := some ("Developer failed: " ++ errStr dev_result.error) } }
    else
      let s := { s with
        html := dev_result.parsed_output
        result :=
          { s.result with
            total_tokens := s.result.total_tokens
              + dev_result.total_input_tokens + dev_result.total_output_tokens
            total_cost_usd := s.result.total_cost_usd + dev_result.total_cost_usd } }
      let s := { s with stages := s.stages ++
        [{ name := "Developer", agent_name := "Developer", status := "done",
           result := some dev_result, duration_ms := dev_result.total_latency_ms }] }
      .ok (emit s "Developer" "done")

/-- Is this issue actionable (`issue.get("severity") in ("critical", "warning")`)?
Raises when the issue has no `.get` (not a dict). -/
def isActionable (issue : PyVal) : Except String Bool :=
  match issue.get "severity" .none with
  | .error e => .error e
  | .ok sev => .ok (sev.eqStr "critical" || sev.eqStr "warning")

/-- The comprehension filtering the actionable issues, raising on the
first malformed element. -/
def filterActionable : List PyVal → Except String (List PyVal)
  | [] => .ok []
  | i :: tl =>
    match isActionable i with
    | .error e => .error e
    | .ok b =>
      match filterActionable tl with
      | .error e => .error e
      | .ok rest => .ok (if b then i :: rest else rest)

/-- One line of `fix_instructions`
(`f"- [·] ·: ·"` built from one actionable issue). -/
def issueLine (issue : PyVal) : Except String String :=
  match issue.sub "severity" with
  | .error e => .error e
  | .ok sev =>
    match sev.upper with
    | .error e => .error e
    | .ok sevU =>
      match issue.sub "description" with
      | .error e => .error e
      | .ok descV =>
        match issue.get "fix_suggestion" (.str "") with
        | .error e => .error e
        | .ok sugg => .ok ("- [" ++ sevU ++ "] " ++ descV.toStr ++ ": " ++ sugg.toStr)

/-- The `fix_instructions` lines for every actionable issue. -/
def issueLines : List PyVal → Except String (List String)
  | [] => .ok []
  | i :: tl =>
    match issueLine i with
    | .error e => .error e
    | .ok l =>
      match issueLines tl with
      | .error e => .error e
      | .ok rest => .ok (l :: rest)

/-- The `fix_prompt` f-string sent to the developer on a corrective
re-invocation. -/
def fixPrompt (instructions : String) (html : PyVal) : String :=
  "\nFix the following issues in this HTML:\n\n" ++ instructions ++
    "\n\nCurrent HTML:\n```html\n" ++ html.toStr ++
    "\n```\n\nReturn the COMPLETE fixed HTML. Start with <!DOCTYPE html> and end with </html>.\nNo explanations, no markdown code fences.\n"

/-- How one iteration of the auto-fix loop body ends: a `break`, a raised
exception, or falling through to the next iteration. -/
inductive LoopStep where
  | brk : PipeSt → LoopStep
  | raise : String → PipeSt → LoopStep
  | cont : PipeSt → LoopStep

/-- The state carried by a loop-step outcome. -/
def LoopStep.st : LoopStep → PipeSt
  | .brk s => s
  | .raise _ s => s
  | .cont s => s

/-- Does the loop body fall through to the next iteration? -/
def LoopStep.isCont : LoopStep → Bool
  | .cont _ => true
  | _ => false

/-- The corrective re-invocation of the Developer (the tail of the loop
body once a non-empty `critical_issues` list is at hand): emit
`Developer running`, build `fix_instructions` and `fix_prompt`, re-invoke
the developer, on success replace the artifact and accumulate, and in
either case emit `Developer done` and continue the loop. -/
def fixPhase (env : PipelineEnv) (iter : Nat) (critical_issues : List PyVal)
    (s : PipeSt) : LoopStep :=
  let s := emit s "Developer" "running"
  match issueLines critical_issues with
  | .error e => .raise e s
  | .ok lns =>
    let fp := fixPrompt (String.intercalate "\n" lns) s.html
    let s := recCall s (.call (.devFix iter) (.str fp) (env.fix iter))
    match env.fix iter with
    | .error e => .raise e s
    | .ok fix_result =>
      let s :=
        if fix_result.success then
          { s with
            html := fix_result.parsed_output
            result :=
              { s.result with
                total_tokens := s.result.total_tokens
                  + fix_result.total_input_tokens + fix_result.total_output_tokens
                total_cost_usd := s.result.total_cost_usd + fix_result.total_cost_usd } }
        else s
      .cont (emit s "Developer" "done")

/-- The loop body once the checker returned with `success=True`: record
the report and the iteration counter, then test the verdict and extract
the actionable defects. -/
def afterReview (env : PipelineEnv) (iter : Nat) (review_result : AgentResult)
    (s : PipeSt) : LoopStep :=
  let review_report := review_result.parsed_output
  let s := { s with result :=
    { s.result with review_report := some review_report, fix_iterations := iter + 1 } }
  match review_report.get "pass" (.bool false) with
  | .error e => .raise e s
  | .ok passV =>
    if passV.truthy then
      .brk s
    else
      match review_report.get "issues" (.list []) with
      | .error e => .raise e s
      | .ok issuesV =>
        match pyIter issuesV with
        | .error e => .raise e s
        | .ok issues =>
          match filterActionable issues with
          | .error e => .raise e s
          | .ok critical_issues =>
            if critical_issues.isEmpty then
              .brk s
            else
              fixPhase env iter critical_issues s

/-- One iteration of the auto-fix loop body, at `fix_iteration = iter`:
invoke the checker, accumulate its usage, and on a returned result hand
over to `afterReview`. -/
def autoFixIter (env : PipelineEnv) (iter : Nat) (s : PipeSt) : LoopStep :=
  let s := recCall s (.call (.reviewer iter) s.html (env.review iter))
  match env.review iter with
  | .error e => .raise e s
  | .ok review_result =>
    let s := { s with review_result := some review_result }
    let s := { s with result :=
      { s.result with
        total_tokens := s.result.total_tokens
          + review_result.total_input_tokens + review_result.total_output_tokens
        total_cost_usd := s.result.total_cost_usd + review_result.total_cost_usd } }
    if review_result.success = false then
      .brk s
    else
      afterReview env iter review_result s

/-- The `for fix_iteration in range(max_fix_iterations)` loop.
`remaining` is the number of iterations left, `iter` the current value of
`fix_iteration`.  A `.ok` outcome is the loop falling through or
breaking; `.exn` is a raised exception. -/
def autoFixLoop (env : PipelineEnv) : Nat → Nat → PipeSt → POut
  | 0, _, s => .ok s
  | remaining' + 1, iter, s =>
    match autoFixIter env iter s with
    | .brk s' => .ok s'
    | .raise e s' => .exn e s'
    | .cont s' => autoFixLoop env remaining' (iter + 1) s'

/-- Stage 5 (Auto-Fix loop, only when enabled): run the loop, then append
the Reviewer stage record — referencing the `review_result` local, which
is unbound (raises) when the loop body never ran. -/
def phase5 (env : PipelineEnv) (cfg : PipelineConfig) (s : PipeSt) : POut :=
  if cfg.auto_fix_enabled then
    let s := emit s "Reviewer" "running"
    match autoFixLoop env cfg.max_fix_iterations 0 s with
    | .ok s =>
      match s.review_result with
      | Option.none =>
        .exn "UnboundLocalError: local variable review_result referenced before assignment" s
      | some review_result =>
        let s := { s with stages := s.stages ++
          [{ name := "Reviewer", agent_name := "Reviewer", status := "done",
             result := some review_result,
             duration_ms := review_result.total_latency_ms }] }
        .ok (emit s "Reviewer" "done")
    | r => r
  else .ok s

/-- Stage 6 (SEO Optimizer, best-effort) followed by final assembly. -/
def phase6 (env : PipelineEnv) (s : PipeSt) : POut :=
  let s := emit s "SEO Optimizer" "running"
  let s := recCall s (.call .seo s.html env.seo)
  match env.seo with
  | .error e => .exn e s
  | .ok seo_result =>
    let s :=
      if seo_result.success then
        { s with
          html := seo_result.parsed_output
          result :=
            { s.result with
              total_tokens := s.result.total_tokens
                + seo_result.total_input_tokens + seo_result.total_output_tokens
              total_cost_usd := s.result.total_cost_usd + seo_result.total_cost_usd }
          stages := s.stages ++
            [{ name := "SEO Optimizer", agent_name := "SEO Optimizer", status := "done",
               result := some seo_result, duration_ms := seo_result.total_latency_ms }] }
      else
        { s with stages := s.stages ++
          [{ name := "SEO Optimizer", agent_name := "SEO Optimizer", status := "error",
             result := some seo_result }] }
    let s := emit s "SEO Optimizer" "done"
    .ok { s with result :=
      { s.result with
        html_code := s.html
        success := true
        stages := s.stages
        total_duration_ms := env.elapsed_ms } }

/-- The whole `try:` body of `BuildPipeline.run`. -/
def bodyRun (cfg : PipelineConfig) (env : PipelineEnv) (desc : String) : POut :=
  pseq (phase1 env desc)
    (pseq (phase23 env)
      (pseq (phase4 env desc)
        (pseq (phase5 env cfg) (phase6 env)))) {}

/-- `BuildPipeline.run`: the body under the top-level `try/except`, which
turns a raised exception into a returned result carrying the error, the
stages list and the elapsed duration.  Returns the `PipelineResult` and
the observable trace. -/
def pipelineRun (cfg : PipelineConfig) (env : PipelineEnv) (desc : String) :
    PipelineResult × List PEvent :=
  match bodyRun cfg env desc with
  | .ok s => (s.result, s.trace)
  | .early s => (s.result, s.trace)
  | .exn e s =>
    ({ s.result with error := some e, stages := s.stages, total_duration_ms := env.elapsed_ms },
     s.trace)

/-! ## Trace-derived observables -/

/-- Tokens of one invocation outcome (0 when the call raised). -/
def outcomeTokens : Except String AgentResult → Nat
  | .ok r => r.total_input_tokens + r.total_output_tokens
  | .error _ => 0

/-- Cost of one invocation outcome (0 when the call raised). -/
def outcomeCost : Except String AgentResult → ℚ
  | .ok r => r.total_cost_usd
  | .error _ => 0

/-- Did the invocation return with `success=True`? -/
def outcomeSucceeded : Except String AgentResult → Bool
  | .ok r => r.success
  | .error _ => false

/-- Tokens over every `AgentResult` produced during the run, failed ones
included (the quantity the spec invariant talks about). -/
def allTokensEv : PEvent → Nat
  | .update _ _ => 0
  | .call _ _ o => outcomeTokens o
  | .callPar _ co dso => outcomeTokens co + outcomeTokens dso

/-- Sum of `allTokensEv` over a trace. -/
def allTokens (tr : List PEvent) : Nat := (tr.map allTokensEv).sum

/-- The tokens of one event that `BuildPipeline.run` actually adds to
`result.total_tokens`: successful Strategist/Developer outcomes, the
parallel pair only when both succeeded, every reviewer outcome that
returned, and successful corrective/SEO outcomes. -/
def countedTokensEv : PEvent → Nat
  | .update _ _ => 0
  | .call (.reviewer _) _ o => outcomeTokens o
  | .call .strategist _ o => if outcomeSucceeded o then outcomeTokens o else 0
  | .call .developer _ o => if outcomeSucceeded o then outcomeTokens o else 0
  | .call (.devFix _) _ o => if outcomeSucceeded o then outcomeTokens o else 0
  | .call .seo _ o => if outcomeSucceeded o then outcomeTokens o else 0
  | .callPar _ co dso =>
    if outcomeSucceeded co && outcomeSucceeded dso
    then outcomeTokens co + outcomeTokens dso else 0

/-- Sum of `countedTokensEv` over a trace. -/
def countedTokens (tr : List PEvent) : Nat := (tr.map countedTokensEv).sum

/-- The cost of one event that `BuildPipeline.run` actually accumulates
(same selection as `countedTokensEv`). -/
def countedCostEv : PEvent → ℚ
  | .update _ _ => 0
  | .call (.reviewer _) _ o => outcomeCost o
  | .call .strategist _ o => if outcomeSucceeded o then outcomeCost o else 0
  | .call .developer _ o => if outcomeSucceeded o then outcomeCost o else 0
  | .call (.devFix _) _ o => if outcomeSucceeded o then outcomeCost o else 0
  | .call .seo _ o => if outcomeSucceeded o then outcomeCost o else 0
  | .callPar _ co dso =>
    if outcomeSucceeded co && outcomeSucceeded dso
    then outcomeCost co + outcomeCost dso else 0

/-- Sum of `countedCostEv` over a trace. -/
def countedCost (tr : List PEvent) : ℚ := (tr.map countedCostEv).sum

/-- 1 for a checker invocation that returned with `success=True`. -/
def succReviewEv : PEvent → Nat
  | .call (.reviewer _) _ (.ok r) => if r.success then 1 else 0
  | _ => 0

/-- Number of successful checker invocations in a trace. -/
def countSuccReviews (tr : List PEvent) : Nat := (tr.map succReviewEv).sum

/-- 1 for a corrective (Stage D) re-invocation. -/
def devFixEv : PEvent → Nat
  | .call (.devFix _) _ _ => 1
  | _ => 0

/-- Number of corrective producer re-invocations in a trace. -/
def countDevFixCalls (tr : List PEvent) : Nat := (tr.map devFixEv).sum

/-- The html artifact passed to the first SEO-stage invocation of the
trace. -/
def seoInput : List PEvent → Option PyVal
  | [] => Option.none
  | PEvent.call Role.seo input _ :: _ => some input
  | _ :: tl => seoInput tl

/-- The statuses reported for one stage name, in emission order. -/
def updatesFor (tr : List PEvent) (name : String) : List String :=
  tr.filterMap fun e =>
    match e with
    | .update n st => if n = name then some st else Option.none
    | _ => Option.none

/-- One transition of the stage status machine; `redispatch` additionally
allows `done → running`. -/
def stepAllowed (redispatch : Bool) (cur next : String) : Bool :=
  (cur == "waiting" && next == "running") ||
  (cur == "running" && (next == "done" || next == "error")) ||
  (redispatch && cur == "done" && next == "running")

/-- Does the status sequence follow the machine starting from `cur`? -/
def runStatuses (redispatch : Bool) : String → List String → Bool
  | _, [] => true
  | cur, st :: tl => stepAllowed redispatch cur st && runStatuses redispatch st tl

/-! ## Telemetry invariants (claims C1 and C2) -/

theorem countedTokens_append (a b : List PEvent) :
    countedTokens (a ++ b) = countedTokens a + countedTokens b := by
  simp [countedTokens]

theorem countedTokens_singleton (e : PEvent) :
    countedTokens [e] = countedTokensEv e := by
  simp [countedTokens]

theorem countedCost_singleton (e : PEvent) :
    countedCost [e] = countedCostEv e := by
  simp [countedCost]

theorem countSuccReviews_singleton (e : PEvent) :
    countSuccReviews [e] = succReviewEv e := by
  simp [countSuccReviews]

theorem countDevFixCalls_singleton (e : PEvent) :
    countDevFixCalls [e] = devFixEv e := by
  simp [countDevFixCalls]

theorem allTokens_singleton (e : PEvent) :
    allTokens [e] = allTokensEv e := by
  simp [allTokens]

theorem countedCost_append (a b : List PEvent) :
    countedCost (a ++ b) = countedCost a + countedCost b := by
  simp [countedCost]

theorem countSuccReviews_append (a b : List PEvent) :
    countSuccReviews (a ++ b) = countSuccReviews a + countSuccReviews b := by
  simp [countSuccReviews]

theorem countDevFixCalls_append (a b : List PEvent) :
    countDevFixCalls (a ++ b) = countDevFixCalls a + countDevFixCalls b := by
  simp [countDevFixCalls]

theorem allTokens_append (a b : List PEvent) :
    allTokens (a ++ b) = allTokens a + allTokens b := by
  simp [allTokens]

/-- The accumulation invariant of a run: the result's token and cost
totals are exactly the counted sums over the trace, and the corrective
counter equals the number of successful checker invocations. -/
def CoreInv (s : PipeSt) : Prop :=
  s.result.total_tokens = countedTokens s.trace ∧
  s.result.total_cost_usd = countedCost s.trace ∧
  s.result.fix_iterations = countSuccReviews s.trace

theorem phase1_core (env : PipelineEnv) (desc : String) (s : PipeSt) (h : CoreInv s) :
    CoreInv (phase1 env desc s).st ∧
    countSuccReviews (phase1 env desc s).st.trace = countSuccReviews s.trace := by
  obtain ⟨h1, h2, h3⟩ := h
  unfold phase1 emit recCall
  cases henv : env.strat with
  | error e =>
    simp [POut.st, CoreInv, countedTokens_append, countedCost_append,
      countSuccReviews_append, countedTokens, countedCost, countSuccReviews,
      countedTokensEv, countedCostEv, succReviewEv, outcomeTokens, outcomeCost,
      outcomeSucceeded, h1, h2, h3]
  | ok r =>
    by_cases hs : r.success = false
    · simp [hs, POut.st, CoreInv, countedTokens_append, countedCost_append,
        countSuccReviews_append, countedTokens, countedCost, countSuccReviews,
        countedTokensEv, countedCostEv, succReviewEv, outcomeTokens, outcomeCost,
        outcomeSucceeded, h1, h2, h3]
    · simp only [Bool.not_eq_false] at hs
      simp [hs, POut.st, CoreInv, countedTokens_append, countedCost_append,
        countSuccReviews_append, countedTokens, countedCost, countSuccReviews,
        countedTokensEv, countedCostEv, succReviewEv, outcomeTokens, outcomeCost,
        outcomeSucceeded, h1, h2, h3]
      ring

theorem phase23_core (env : PipelineEnv) (s : PipeSt) (h : CoreInv s) :
    CoreInv (phase23 env s).st ∧
    countSuccReviews (phase23 env s).st.trace = countSuccReviews s.trace := by
  obtain ⟨h1, h2, h3⟩ := h
  unfold phase23 emit recCall
  cases henvc : env.copyR with
  | error e =>
    simp [POut.st, CoreInv, countedTokens_append, countedCost_append,
      countSuccReviews_append, countedTokens, countedCost, countSuccReviews,
      countedTokensEv, countedCostEv, succReviewEv, outcomeTokens, outcomeCost,
      outcomeSucceeded, henvc, h1, h2, h3]
  | ok cr =>
    cases henvd : env.design with
    | error e =>
      simp [POut.st, CoreInv, countedTokens_append, countedCost_append,
        countSuccReviews_append, countedTokens, countedCost, countSuccReviews,
        countedTokensEv, countedCostEv, succReviewEv, outcomeSucceeded,
        henvc, henvd, h1, h2, h3]
    | ok dr =>
      by_cases hcs : cr.success = false
      · simp [hcs, POut.st, CoreInv, countedTokens_append, countedCost_append,
          countSuccReviews_append, countedTokens, countedCost, countSuccReviews,
          countedTokensEv, countedCostEv, succReviewEv, outcomeSucceeded,
          henvc, henvd, h1, h2, h3]
      · simp only [Bool.not_eq_false] at hcs
        by_cases hds : dr.success = false
        · simp [hcs, hds, POut.st, CoreInv, countedTokens_append, countedCost_append,
            countSuccReviews_append, countedTokens, countedCost, countSuccReviews,
            countedTokensEv, countedCostEv, succReviewEv, outcomeSucceeded,
            henvc, henvd, h1, h2, h3]
        · simp only [Bool.not_eq_false] at hds
          simp [hcs, hds, POut.st, CoreInv, countedTokens_append, countedCost_append,
            countSuccReviews_append, countedTokens, countedCost, countSuccReviews,
            countedTokensEv, countedCostEv, succReviewEv, outcomeTokens, outcomeCost,
            outcomeSucceeded, henvc, henvd, h1, h2, h3]
          omega

theorem phase4_core (env : PipelineEnv) (desc : String) (s : PipeSt) (h : CoreInv s) :
    CoreInv (phase4 env desc s).st ∧
    countSuccReviews (phase4 env desc s).st.trace = countSuccReviews s.trace := by
  obtain ⟨h1, h2, h3⟩ := h
  unfold phase4 emit recCall
  cases henv : env.dev with
  | error e =>
    simp [POut.st, CoreInv, countedTokens_append, countedCost_append,
      countSuccReviews_append, countedTokens, countedCost, countSuccReviews,
      countedTokensEv, countedCostEv, succReviewEv, outcomeTokens, outcomeCost,
      outcomeSucceeded, h1, h2, h3]
  | ok r =>
    by_cases hs : r.success = false
    · simp [hs, POut.st, CoreInv, countedTokens_append, countedCost_append,
        countSuccReviews_append, countedTokens, countedCost, countSuccReviews,
        countedTokensEv, countedCostEv, succReviewEv, outcomeSucceeded, h1, h2, h3]
    · simp only [Bool.not_eq_false] at hs
      simp [hs, POut.st, CoreInv, countedTokens_append, countedCost_append,
        countSuccReviews_append, countedTokens, countedCost, countSuccReviews,
        countedTokensEv, countedCostEv, succReviewEv, outcomeTokens, outcomeCost,
        outcomeSucceeded, h1, h2, h3]
      ring

theorem fixPhase_core (env : PipelineEnv) (iter : Nat) (crit : List PyVal)
    (s : PipeSt) (h : CoreInv s) :
    CoreInv (fixPhase env iter crit s).st ∧
    countSuccReviews (fixPhase env iter crit s).st.trace = countSuccReviews s.trace := by
  obtain ⟨h1, h2, h3⟩ := h
  unfold fixPhase recCall emit
  repeat' split
  all_goals
    simp_all [LoopStep.st, CoreInv, countedTokens_append,
      countedCost_append, countSuccReviews_append, countedTokens, countedCost,
      countSuccReviews, countedTokensEv, countedCostEv, succReviewEv,
      outcomeTokens, outcomeCost, outcomeSucceeded]
  all_goals ring

theorem afterReview_core (env : PipelineEnv) (iter : Nat) (rr : AgentResult)
    (s : PipeSt) (h1 : s.result.total_tokens = countedTokens s.trace)
    (h2 : s.result.total_cost_usd = countedCost s.trace)
    (hc : countSuccReviews s.trace = iter + 1) :
    CoreInv (afterReview env iter rr s).st ∧
    countSuccReviews (afterReview env iter rr s).st.trace = iter + 1 := by
  simp only [afterReview]
  cases hp : rr.parsed_output.get "pass" (PyVal.bool false) with
  | error e => exact ⟨⟨h1, h2, hc.symm⟩, hc⟩
  | ok passV =>
    dsimp only
    by_cases ht : passV.truthy
    · simp only [ht, if_pos]
      exact ⟨⟨h1, h2, hc.symm⟩, hc⟩
    · simp only [ht, if_neg, Bool.false_eq_true, not_false_eq_true]
      cases hi : rr.parsed_output.get "issues" (PyVal.list []) with
      | error e => exact ⟨⟨h1, h2, hc.symm⟩, hc⟩
      | ok issuesV =>
        dsimp only
        cases hiter : pyIter issuesV with
        | error e => exact ⟨⟨h1, h2, hc.symm⟩, hc⟩
        | ok issues =>
          dsimp only
          cases hf : filterActionable issues with
          | error e => exact ⟨⟨h1, h2, hc.symm⟩, hc⟩
          | ok crit =>
            dsimp only
            by_cases hce : crit.isEmpty
            · simp only [hce, if_pos]
              exact ⟨⟨h1, h2, hc.symm⟩, hc⟩
            · simp only [hce, if_neg, Bool.false_eq_true, not_false_eq_true]
              have key := fixPhase_core env iter crit
                { s with result :=
                    { s.result with
                      review_report := some rr.parsed_output
                      fix_iterations := iter + 1 } } ⟨h1, h2, hc.symm⟩
              exact ⟨key.1, by rw [key.2]; exact hc⟩

theorem autoFixIter_core (env : PipelineEnv) (iter : Nat) (s : PipeSt)
    (h : CoreInv s) (hc : countSuccReviews s.trace = iter) :
    CoreInv (autoFixIter env iter s).st ∧
    countSuccReviews (autoFixIter env iter s).st.trace ≤ iter + 1 ∧
    ((autoFixIter env iter s).isCont = true →
      countSuccReviews (autoFixIter env iter s).st.trace = iter + 1) := by
  obtain ⟨h1, h2, h3⟩ := h
  simp only [autoFixIter, recCall]
  cases hrev : env.review iter with
  | error e =>
    dsimp only [LoopStep.st, LoopStep.isCont]
    refine ⟨⟨?_, ?_, ?_⟩, ?_, ?_⟩ <;>
      simp [countSuccReviews_append, countedTokens_append, countedCost_append,
        countSuccReviews_singleton, countedTokens_singleton, countedCost_singleton,
        countedTokensEv, countedCostEv, succReviewEv, outcomeTokens, outcomeCost,
        h1, h2, h3, hc]
  | ok rr =>
    dsimp only
    by_cases hrs : rr.success = false
    · simp only [hrs, if_pos]
      dsimp only [LoopStep.st, LoopStep.isCont]
      refine ⟨⟨?_, ?_, ?_⟩, ?_, ?_⟩ <;>
        simp [hrs, countSuccReviews_append, countedTokens_append, countedCost_append,
          countSuccReviews_singleton, countedTokens_singleton, countedCost_singleton,
          countedTokensEv, countedCostEv, succReviewEv, outcomeTokens, outcomeCost,
          h1, h2, h3, hc] <;>
        omega
    · simp only [hrs, if_neg, Bool.not_eq_false]
      simp only [Bool.not_eq_false] at hrs
      have key := afterReview_core env iter rr
        { result :=
            { s.result with
              total_tokens := s.result.total_tokens
                + rr.total_input_tokens + rr.total_output_tokens
              total_cost_usd := s.result.total_cost_usd + rr.total_cost_usd }
          stages := s.stages
          html := s.html
          review_result := some rr
          trace := s.trace ++ [PEvent.call (Role.reviewer iter) s.html (Except.ok rr)] }
        (by simp [countedTokens_append, countedTokens_singleton, countedTokensEv,
              outcomeTokens, h1]
            omega)
        (by simp [countedCost_append, countedCost_singleton, countedCostEv,
              outcomeCost, h2]
            try ring)
        (by simp [countSuccReviews_append, countSuccReviews_singleton, succReviewEv,
              hrs, hc])
      exact ⟨key.1, le_of_eq key.2, fun _ => key.2⟩

theorem autoFixLoop_core (env : PipelineEnv) :
    ∀ rem iter s, CoreInv s → countSuccReviews s.trace = iter →
      CoreInv (autoFixLoop env rem iter s).st ∧
      countSuccReviews (autoFixLoop env rem iter s).st.trace ≤ iter + rem := by
  intro rem
  induction rem with
  | zero =>
    intro iter s h hc
    exact ⟨h, by simp [autoFixLoop, POut.st, hc]⟩
  | succ m ih =>
    intro iter s h hc
    have key := autoFixIter_core env iter s h hc
    simp only [autoFixLoop]
    cases hit : autoFixIter env iter s with
    | brk s' =>
      rw [hit] at key
      simp only [LoopStep.st] at key
      have hk := key.2.1
      exact ⟨key.1, by simp only [POut.st]; omega⟩
    | raise e s' =>
      rw [hit] at key
      simp only [LoopStep.st] at key
      have hk := key.2.1
      exact ⟨key.1, by simp only [POut.st]; omega⟩
    | cont s' =>
      rw [hit] at key
      simp only [LoopStep.st, LoopStep.isCont] at key
      have h' := ih (iter + 1) s' key.1 (key.2.2 (by simp))
      have hk := h'.2
      exact ⟨h'.1, by dsimp only; omega⟩

theorem emit_core (s : PipeSt) (n st : String) (h : CoreInv s) :
    CoreInv (emit s n st) ∧
    countSuccReviews (emit s n st).trace = countSuccReviews s.trace := by
  obtain ⟨h1, h2, h3⟩ := h
  refine ⟨⟨?_, ?_, ?_⟩, ?_⟩ <;>
    simp [emit, countedTokens_append, countedCost_append, countSuccReviews_append,
      countedTokens_singleton, countedCost_singleton, countSuccReviews_singleton,
      countedTokensEv, countedCostEv, succReviewEv, h1, h2, h3]

theorem phase5_core (env : PipelineEnv) (cfg : PipelineConfig) (s : PipeSt)
    (h : CoreInv s) (hc : countSuccReviews s.trace = 0) :
    CoreInv (phase5 env cfg s).st ∧
    countSuccReviews (phase5 env cfg s).st.trace ≤ cfg.max_fix_iterations ∧
    (cfg.auto_fix_enabled = false →
      countSuccReviews (phase5 env cfg s).st.trace = 0) := by
  unfold phase5
  cases he : cfg.auto_fix_enabled with
  | false =>
    simp only [he, Bool.false_eq_true, if_neg, not_false_eq_true]
    dsimp only [POut.st]
    exact ⟨h, by omega, fun _ => hc⟩
  | true =>
    simp only [he, if_pos]
    have hemit := emit_core s "Reviewer" "running" h
    have key := autoFixLoop_core env cfg.max_fix_iterations 0
      (emit s "Reviewer" "running") hemit.1 (by rw [hemit.2, hc])
    cases hloop : autoFixLoop env cfg.max_fix_iterations 0 (emit s "Reviewer" "running") with
    | ok s' =>
      rw [hloop] at key
      simp only [POut.st] at key
      obtain ⟨⟨k1, k2, k3⟩, k4⟩ := key
      dsimp only
      cases hrr : s'.review_result with
      | none =>
        dsimp only [POut.st]
        exact ⟨⟨k1, k2, k3⟩, by omega, fun hfalse => absurd hfalse (by decide)⟩
      | some rr =>
        dsimp only [POut.st]
        refine ⟨⟨?_, ?_, ?_⟩, ?_, fun hfalse => absurd hfalse (by decide)⟩ <;>
          simp [emit, countedTokens_append, countedCost_append, countSuccReviews_append,
            countedTokens_singleton, countedCost_singleton, countSuccReviews_singleton,
            countedTokensEv, countedCostEv, succReviewEv, k1, k2, k3] <;>
          omega
    | early s' =>
      rw [hloop] at key
      simp only [POut.st] at key
      obtain ⟨⟨k1, k2, k3⟩, k4⟩ := key
      dsimp only [POut.st]
      exact ⟨⟨k1, k2, k3⟩, by omega, fun hfalse => absurd hfalse (by decide)⟩
    | exn e s' =>
      rw [hloop] at key
      simp only [POut.st] at key
      obtain ⟨⟨k1, k2, k3⟩, k4⟩ := key
      dsimp only [POut.st]
      exact ⟨⟨k1, k2, k3⟩, by omega, fun hfalse => absurd hfalse (by decide)⟩

theorem phase6_core (env : PipelineEnv) (s : PipeSt) (h : CoreInv s) :
    CoreInv (phase6 env s).st ∧
    countSuccReviews (phase6 env s).st.trace = countSuccReviews s.trace := by
  obtain ⟨h1, h2, h3⟩ := h
  unfold phase6 emit recCall
  cases henv : env.seo with
  | error e =>
    simp [POut.st, CoreInv, countedTokens_append, countedCost_append,
      countSuccReviews_append, countedTokens, countedCost, countSuccReviews,
      countedTokensEv, countedCostEv, succReviewEv, outcomeTokens, outcomeCost,
      outcomeSucceeded, h1, h2, h3]
  | ok r =>
    by_cases hs : r.success = true
    · simp [hs, POut.st, CoreInv, countedTokens_append, countedCost_append,
        countSuccReviews_append, countedTokens, countedCost, countSuccReviews,
        countedTokensEv, countedCostEv, succReviewEv, outcomeTokens, outcomeCost,
        outcomeSucceeded, h1, h2, h3]
      ring
    · simp only [Bool.not_eq_true] at hs
      simp [hs, POut.st, CoreInv, countedTokens_append, countedCost_append,
        countSuccReviews_append, countedTokens, countedCost, countSuccReviews,
        countedTokensEv, countedCostEv, succReviewEv, outcomeSucceeded, h1, h2, h3]

theorem bodyRun_core (cfg : PipelineConfig) (env : PipelineEnv) (desc : String) :
    CoreInv (bodyRun cfg env desc).st ∧
    countSuccReviews (bodyRun cfg env desc).st.trace ≤ cfg.max_fix_iterations ∧
    (cfg.auto_fix_enabled = false → countSuccReviews (bodyRun cfg env desc).st.trace = 0) := by
  unfold bodyRun pseq
  have p1 := phase1_core env desc {} ⟨rfl, rfl, rfl⟩
  cases h1 : phase1 env desc {} with
  | early s1 =>
    rw [h1] at p1
    simp only [POut.st] at p1 ⊢
    have hz : countSuccReviews ({} : PipeSt).trace = 0 := rfl
    rw [hz] at p1
    exact ⟨p1.1, by omega, fun _ => p1.2⟩
  | exn e s1 =>
    rw [h1] at p1
    simp only [POut.st] at p1 ⊢
    have hz : countSuccReviews ({} : PipeSt).trace = 0 := rfl
    rw [hz] at p1
    exact ⟨p1.1, by omega, fun _ => p1.2⟩
  | ok s1 =>
    rw [h1] at p1
    simp only [POut.st] at p1
    have hz : countSuccReviews ({} : PipeSt).trace = 0 := rfl
    rw [hz] at p1
    dsimp only
    have p2 := phase23_core env s1 p1.1
    cases h2 : phase23 env s1 with
    | early s2 =>
      rw [h2] at p2
      simp only [POut.st] at p2 ⊢
      rw [p1.2] at p2
      exact ⟨p2.1, by omega, fun _ => p2.2⟩
    | exn e s2 =>
      rw [h2] at p2
      simp only [POut.st] at p2 ⊢
      rw [p1.2] at p2
      exact ⟨p2.1, by omega, fun _ => p2.2⟩
    | ok s2 =>
      rw [h2] at p2
      simp only [POut.st] at p2
      rw [p1.2] at p2
      dsimp only
      have p3 := phase4_core env desc s2 p2.1
      cases h3 : phase4 env desc s2 with
      | early s3 =>
        rw [h3] at p3
        simp only [POut.st] at p3 ⊢
        rw [p2.2] at p3
        exact ⟨p3.1, by omega, fun _ => p3.2⟩
      | exn e s3 =>
        rw [h3] at p3
        simp only [POut.st] at p3 ⊢
        rw [p2.2] at p3
        exact ⟨p3.1, by omega, fun _ => p3.2⟩
      | ok s3 =>
        rw [h3] at p3
        simp only [POut.st] at p3
        rw [p2.2] at p3
        dsimp only
        have p4 := phase5_core env cfg s3 p3.1 p3.2
        cases h4 : phase5 env cfg s3 with
        | early s4 =>
          rw [h4] at p4
          simp only [POut.st] at p4 ⊢
          exact p4
        | exn e s4 =>
          rw [h4] at p4
          simp only [POut.st] at p4 ⊢
          exact p4
        | ok s4 =>
          rw [h4] at p4
          simp only [POut.st] at p4
          dsimp only
          have p5 := phase6_core env s4 p4.1
          cases h5 : phase6 env s4 with
          | early s5 =>
            rw [h5] at p5
            simp only [POut.st] at p5 ⊢
            rw [p5.2]
            exact ⟨p5.1, p4.2.1, p4.2.2⟩
          | exn e s5 =>
            rw [h5] at p5
            simp only [POut.st] at p5 ⊢
            rw [p5.2]
            exact ⟨p5.1, p4.2.1, p4.2.2⟩
          | ok s5 =>
            rw [h5] at p5
            simp only [POut.st] at p5 ⊢
            rw [p5.2]
            exact ⟨p5.1, p4.2.1, p4.2.2⟩

/-- C1 (amended): the token and cost totals on the returned result equal
the counted sums over the trace — the outcomes the code accumulates:
successful Strategist/Developer outcomes, the parallel pair only when
both succeeded, every checker outcome that returned, and successful
corrective re-invocations and SEO outcomes; failed halting invocations,
the discarded parallel peer, failed corrective re-invocations and failed
best-effort attempts are excluded, and the duration total is the
wall-clock reading, not a sum over outcomes. -/
theorem pipeline_totals_counted (cfg : PipelineConfig) (env : PipelineEnv) (desc : String) :
    (pipelineRun cfg env desc).1.total_tokens = countedTokens (pipelineRun cfg env desc).2 ∧
    (pipelineRun cfg env desc).1.total_cost_usd = countedCost (pipelineRun cfg env desc).2 := by
  have key := (bodyRun_core cfg env desc).1
  unfold pipelineRun
  cases hb : bodyRun cfg env desc with
  | ok s => rw [hb] at key; exact ⟨key.1, key.2.1⟩
  | early s => rw [hb] at key; exact ⟨key.1, key.2.1⟩
  | exn e s => rw [hb] at key; exact ⟨key.1, key.2.1⟩

/-- C2 (amended): the corrective-loop counter on the result equals the
number of checker invocations that returned with success (so it is 1,
not 0, when the checker passes on its first invocation, and it counts
checker passes rather than producer re-invocations); it never exceeds
the configured maximum and is 0 when the loop is disabled. -/
theorem fix_iterations_counts_checker_successes (cfg : PipelineConfig)
    (env : PipelineEnv) (desc : String) :
    (pipelineRun cfg env desc).1.fix_iterations
      = countSuccReviews (pipelineRun cfg env desc).2 ∧
    (pipelineRun cfg env desc).1.fix_iterations ≤ cfg.max_fix_iterations ∧
    (cfg.auto_fix_enabled = false → (pipelineRun cfg env desc).1.fix_iterations = 0) := by
  have key := bodyRun_core cfg env desc
  unfold pipelineRun
  cases hb : bodyRun cfg env desc with
  | ok s =>
    rw [hb] at key
    simp only [POut.st] at key
    dsimp only
    exact ⟨key.1.2.2, by have h6 := key.1.2.2; have h7 := key.2.1; omega,
      fun hd => by rw [key.1.2.2]; exact key.2.2 hd⟩
  | early s =>
    rw [hb] at key
    simp only [POut.st] at key
    dsimp only
    exact ⟨key.1.2.2, by have h6 := key.1.2.2; have h7 := key.2.1; omega,
      fun hd => by rw [key.1.2.2]; exact key.2.2 hd⟩
  | exn e s =>
    rw [hb] at key
    simp only [POut.st] at key
    dsimp only
    exact ⟨key.1.2.2, by have h6 := key.1.2.2; have h7 := key.2.1; omega,
      fun hd => by rw [key.1.2.2]; exact key.2.2 hd⟩

/-! ## Machinery for the corrective-loop bound (claim C7) -/

theorem seoInput_append (a b : List PEvent) :
    seoInput (a ++ b)
      = (match seoInput a with | some v => some v | Option.none => seoInput b) := by
  induction a with
  | nil => simp [seoInput]
  | cons e tl ih =>
    cases e with
    | update n st => simpa [seoInput] using ih
    | callPar i co dso => simpa [seoInput] using ih
    | call r input o =>
      cases r with
      | seo => simp [seoInput]
      | strategist => simpa [seoInput] using ih
      | developer => simpa [seoInput] using ih
      | reviewer k => simpa [seoInput] using ih
      | devFix k => simpa [seoInput] using ih

theorem phase1_ok_parts (env : PipelineEnv) (desc : String) (s : PipeSt)
    (sr : AgentResult) (h : env.strat = .ok sr) (hs : sr.success = true) :
    ∃ s', phase1 env desc s = .ok s' ∧ s'.html = s.html ∧
      countDevFixCalls s'.trace = countDevFixCalls s.trace ∧
      seoInput s'.trace = seoInput s.trace ∧
      s'.review_result = s.review_result := by
  unfold phase1 emit recCall
  simp only [h, hs, Bool.true_eq_false, if_neg, not_false_eq_true]
  refine ⟨_, rfl, rfl, ?_, ?_, rfl⟩
  · simp [countDevFixCalls_append, countDevFixCalls, devFixEv]
  · simp only [seoInput_append]
    cases hsi : seoInput s.trace <;> simp [seoInput]

theorem phase23_ok_parts (env : PipelineEnv) (s : PipeSt)
    (cr dr : AgentResult) (hc : env.copyR = .ok cr) (hd : env.design = .ok dr)
    (hcs : cr.success = true) (hds : dr.success = true) :
    ∃ s', phase23 env s = .ok s' ∧ s'.html = s.html ∧
      countDevFixCalls s'.trace = countDevFixCalls s.trace ∧
      seoInput s'.trace = seoInput s.trace ∧
      s'.review_result = s.review_result := by
  unfold phase23 emit recCall
  simp only [hc, hd, hcs, hds, Bool.true_eq_false, if_neg, not_false_eq_true]
  refine ⟨_, rfl, rfl, ?_, ?_, rfl⟩
  · simp [countDevFixCalls_append, countDevFixCalls, devFixEv]
  · simp only [seoInput_append]
    cases hsi : seoInput s.trace <;> simp [seoInput]

theorem phase4_ok_parts (env : PipelineEnv) (desc : String) (s : PipeSt)
    (dv : AgentResult) (h : env.dev = .ok dv) (hs : dv.success = true) :
    ∃ s', phase4 env desc s = .ok s' ∧ s'.html = dv.parsed_output ∧
      countDevFixCalls s'.trace = countDevFixCalls s.trace ∧
      seoInput s'.trace = seoInput s.trace ∧
      s'.review_result = s.review_result := by
  unfold phase4 emit recCall
  simp only [h, hs, Bool.true_eq_false, if_neg, not_false_eq_true]
  refine ⟨_, rfl, rfl, ?_, ?_, rfl⟩
  · simp [countDevFixCalls_append, countDevFixCalls, devFixEv]
  · simp only [seoInput_append]
    cases hsi : seoInput s.trace <;> simp [seoInput]

/-- The hypotheses of the loop-bound claim, phrased through the
embedding's operations: on every iteration the checker returns success
with a verdict that is not "pass" and a non-empty actionable defect list
that formats into fix instructions, and every producer re-invocation
returns success. -/
structure AlwaysFixEnv (env : PipelineEnv) (rv fx : Nat → AgentResult) : Prop where
  hrev : ∀ i, env.review i = .ok (rv i)
  hrs : ∀ i, (rv i).success = true
  hpass : ∀ i, ∃ passv, (rv i).parsed_output.get "pass" (.bool false) = .ok passv ∧
    passv.truthy = false
  hiss : ∀ i, ∃ issv iss crit lns,
    (rv i).parsed_output.get "issues" (.list []) = .ok issv ∧
    pyIter issv = .ok iss ∧
    filterActionable iss = .ok crit ∧
    crit.isEmpty = false ∧
    issueLines crit = .ok lns
  hfx : ∀ i, env.fix i = .ok (fx i)
  hfxs : ∀ i, (fx i).success = true

theorem autoFixIter_fixes (env : PipelineEnv) (rv fx : Nat → AgentResult)
    (H : AlwaysFixEnv env rv fx) (i : Nat) (s : PipeSt) :
    ∃ s', autoFixIter env i s = .cont s' ∧
      s'.html = (fx i).parsed_output ∧
      countDevFixCalls s'.trace = countDevFixCalls s.trace + 1 ∧
      seoInput s'.trace = seoInput s.trace ∧
      s'.review_result = some (rv i) := by
  obtain ⟨passv, hpassv, hpt⟩ := H.hpass i
  obtain ⟨issv, iss, crit, lns, hissv, hit, hfl, hne, hlns⟩ := H.hiss i
  unfold autoFixIter afterReview fixPhase recCall emit
  simp only [H.hrev i, H.hrs i, H.hfx i, H.hfxs i, hpassv, hpt, hissv, hit, hfl,
    hne, hlns, Bool.true_eq_false, if_neg, not_false_eq_true, Bool.false_eq_true,
    if_pos]
  refine ⟨_, rfl, rfl, ?_, ?_, rfl⟩
  · simp [countDevFixCalls_append, countDevFixCalls, devFixEv]
  · simp only [seoInput_append]
    cases hsi : seoInput s.trace <;> simp [seoInput]

theorem autoFixLoop_fixes (env : PipelineEnv) (rv fx : Nat → AgentResult)
    (H : AlwaysFixEnv env rv fx) :
    ∀ r iter s,
      ∃ s', autoFixLoop env (r + 1) iter s = .ok s' ∧
        s'.html = (fx (iter + r)).parsed_output ∧
        countDevFixCalls s'.trace = countDevFixCalls s.trace + (r + 1) ∧
        seoInput s'.trace = seoInput s.trace ∧
        s'.review_result = some (rv (iter + r)) := by
  intro r
  induction r with
  | zero =>
    intro iter s
    obtain ⟨s', hstep, hh, hd, hseo, hrr⟩ := autoFixIter_fixes env rv fx H iter s
    refine ⟨s', ?_, by simpa using hh, by simpa using hd, hseo, by simpa using hrr⟩
    simp only [autoFixLoop, hstep]
  | succ r ih =>
    intro iter s
    obtain ⟨s', hstep, hh, hd, hseo, hrr⟩ := autoFixIter_fixes env rv fx H iter s
    obtain ⟨s'', hloop, hh2, hd2, hseo2, hrr2⟩ := ih (iter + 1) s'
    have harith : iter + 1 + r = iter + (r + 1) := by omega
    refine ⟨s'', ?_, by rw [hh2, harith], by rw [hd2, hd]; omega,
      by rw [hseo2, hseo], by rw [hrr2, harith]⟩
    simp only [autoFixLoop, hstep]
    exact hloop

theorem phase5_fixes (env : PipelineEnv) (cfg : PipelineConfig)
    (rv fx : Nat → AgentResult) (H : AlwaysFixEnv env rv fx)
    (hen : cfg.auto_fix_enabled = true) (hmax : 1 ≤ cfg.max_fix_iterations)
    (s : PipeSt) :
    ∃ s', phase5 env cfg s = .ok s' ∧
      s'.html = (fx (cfg.max_fix_iterations - 1)).parsed_output ∧
      countDevFixCalls s'.trace = countDevFixCalls s.trace + cfg.max_fix_iterations ∧
      seoInput s'.trace = seoInput s.trace := by
  obtain ⟨r, hr⟩ : ∃ r, cfg.max_fix_iterations = r + 1 :=
    ⟨cfg.max_fix_iterations - 1, by omega⟩
  obtain ⟨s', hloop, hh, hd, hseo, hrr⟩ :=
    autoFixLoop_fixes env rv fx H r 0 (emit s "Reviewer" "running")
  unfold phase5
  simp only [hen, eq_self_iff_true, ite_true]
  rw [hr, hloop]
  dsimp only
  rw [hrr]
  dsimp only
  simp only [emit] at hd hseo
  rw [countDevFixCalls_append] at hd
  rw [seoInput_append] at hseo
  have h0r : 0 + r = r + 1 - 1 := by omega
  refine ⟨_, rfl, by rw [hh, h0r]; rfl, ?_, ?_⟩
  · simp only [emit]
    rw [countDevFixCalls_append, hd]
    simp [countDevFixCalls, devFixEv]
  · simp only [emit]
    rw [seoInput_append, hseo]
    cases hsi : seoInput s.trace <;> simp [seoInput]

theorem phase6_ok_parts (env : PipelineEnv) (s : PipeSt) (seoR : AgentResult)
    (h : env.seo = .ok seoR) (hseo : seoInput s.trace = Option.none) :
    ∃ s', phase6 env s = .ok s' ∧ s'.result.success = true ∧
      seoInput s'.trace = some s.html ∧
      countDevFixCalls s'.trace = countDevFixCalls s.trace := by
  unfold phase6 emit recCall
  rw [h]
  dsimp only
  by_cases hs : seoR.success = true
  · simp only [hs, ite_true]
    refine ⟨_, rfl, rfl, ?_, ?_⟩
    · simp [seoInput_append, hseo, seoInput]
    · simp [countDevFixCalls_append, countDevFixCalls, devFixEv]
  · simp only [hs, ite_false, Bool.false_eq_true]
    refine ⟨_, rfl, rfl, ?_, ?_⟩
    · simp [seoInput_append, hseo, seoInput]
    · simp [countDevFixCalls_append, countDevFixCalls, devFixEv]

/-- C7 (amended): with the corrective loop enabled and a maximum
iteration count of at least 1, if on every iteration the checker
succeeds but reports "fail" with at least one actionable defect and the
producer re-invocations succeed, the loop performs exactly
`max_fix_iterations` producer re-invocations and the run proceeds to
completion with success=true, handing the producer's last artifact to
the final stage.  (With a maximum of 0 and the loop enabled the run
fails instead — see the counterexample.) -/
theorem loop_bound_exact_reinvocations
    (cfg : PipelineConfig) (env : PipelineEnv) (desc : String)
    (rv fx : Nat → AgentResult) (H : AlwaysFixEnv env rv fx)
    (hen : cfg.auto_fix_enabled = true) (hmax : 1 ≤ cfg.max_fix_iterations)
    (sr cr dr dv seoR : AgentResult)
    (h1 : env.strat = .ok sr) (h1s : sr.success = true)
    (h2 : env.copyR = .ok cr) (h2s : cr.success = true)
    (h3 : env.design = .ok dr) (h3s : dr.success = true)
    (h4 : env.dev = .ok dv) (h4s : dv.success = true)
    (h6 : env.seo = .ok seoR) :
    (pipelineRun cfg env desc).1.success = true ∧
    countDevFixCalls (pipelineRun cfg env desc).2 = cfg.max_fix_iterations ∧
    seoInput (pipelineRun cfg env desc).2
      = some ((fx (cfg.max_fix_iterations - 1)).parsed_output) := by
  obtain ⟨s1, e1, hh1, hd1, hs1, hr1⟩ := phase1_ok_parts env desc {} sr h1 h1s
  obtain ⟨s2, e2, hh2, hd2, hs2, hr2⟩ := phase23_ok_parts env s1 cr dr h2 h3 h2s h3s
  obtain ⟨s3, e3, hh3, hd3, hs3, hr3⟩ := phase4_ok_parts env desc s2 dv h4 h4s
  obtain ⟨s4, e4, hh4, hd4, hs4⟩ := phase5_fixes env cfg rv fx H hen hmax s3
  have hnil : seoInput ({} : PipeSt).trace = Option.none := rfl
  have hdnil : countDevFixCalls ({} : PipeSt).trace = 0 := rfl
  obtain ⟨s5, e5, hsucc5, hseo5, hd5⟩ := phase6_ok_parts env s4 seoR h6
    (by rw [hs4, hs3, hs2, hs1, hnil])
  unfold pipelineRun bodyRun pseq
  rw [e1]
  dsimp only
  rw [e2]
  dsimp only
  rw [e3]
  dsimp only
  rw [e4]
  dsimp only
  rw [e5]
  dsimp only
  refine ⟨hsucc5, ?_, ?_⟩
  · rw [hd5, hd4, hd3, hd2, hd1, hdnil]
    omega
  · rw [hseo5, hh4]

/-! ## Error containment and early-halt machinery (claims C8 and C10) -/

/-- Before final assembly the result object still has its defaults for
`success` and `stages`: `False` and the empty list. -/
def PreInv (s : PipeSt) : Prop :=
  s.result.success = false ∧ s.result.stages = []

theorem phase1_pre (env : PipelineEnv) (desc : String) (s : PipeSt)
    (hpre : PreInv s) : PreInv (phase1 env desc s).st := by
  unfold phase1 emit recCall
  cases h : env.strat with
  | error e => exact hpre
  | ok r =>
    dsimp only
    split <;> exact hpre

theorem phase23_pre (env : PipelineEnv) (s : PipeSt)
    (hpre : PreInv s) : PreInv (phase23 env s).st := by
  unfold phase23 emit recCall
  cases hc : env.copyR with
  | error e => exact hpre
  | ok cr =>
    dsimp only
    cases hd : env.design with
    | error e => exact hpre
    | ok dr =>
      dsimp only
      split
      · exact hpre
      · split <;> exact hpre

theorem phase4_pre (env : PipelineEnv) (desc : String) (s : PipeSt)
    (hpre : PreInv s) : PreInv (phase4 env desc s).st := by
  unfold phase4 emit recCall
  cases h : env.dev with
  | error e => exact hpre
  | ok r =>
    dsimp only
    split <;> exact hpre

theorem fixPhase_pre (env : PipelineEnv) (iter : Nat) (crit : List PyVal)
    (s : PipeSt) (hpre : PreInv s) : PreInv (fixPhase env iter crit s).st := by
  unfold fixPhase emit recCall
  repeat' split
  all_goals exact hpre

theorem afterReview_pre (env : PipelineEnv) (iter : Nat) (rr : AgentResult)
    (s : PipeSt) (hpre : PreInv s) : PreInv (afterReview env iter rr s).st := by
  simp only [afterReview]
  cases hp : rr.parsed_output.get "pass" (PyVal.bool false) with
  | error e => exact hpre
  | ok passV =>
    dsimp only
    by_cases ht : passV.truthy
    · simp only [ht, if_pos]
      exact hpre
    · simp only [ht, if_neg, Bool.false_eq_true, not_false_eq_true]
      cases hi : rr.parsed_output.get "issues" (PyVal.list []) with
      | error e => exact hpre
      | ok issuesV =>
        dsimp only
        cases hiter : pyIter issuesV with
        | error e => exact hpre
        | ok issues =>
          dsimp only
          cases hf : filterActionable issues with
          | error e => exact hpre
          | ok crit =>
            dsimp only
            by_cases hce : crit.isEmpty
            · simp only [hce, if_pos]
              exact hpre
            · simp only [hce, if_neg, Bool.false_eq_true, not_false_eq_true]
              exact fixPhase_pre env iter crit _ ⟨hpre.1, hpre.2⟩

theorem autoFixIter_pre (env : PipelineEnv) (iter : Nat) (s : PipeSt)
    (hpre : PreInv s) : PreInv (autoFixIter env iter s).st := by
  simp only [autoFixIter, recCall]
  cases hrev : env.review iter with
  | error e => exact hpre
  | ok rr =>
    dsimp only
    by_cases hrs : rr.success = false
    · simp only [hrs, if_pos]
      exact hpre
    · simp only [hrs, if_neg, Bool.not_eq_false]
      exact afterReview_pre env iter rr _ ⟨hpre.1, hpre.2⟩

theorem autoFixLoop_pre (env : PipelineEnv) :
    ∀ rem iter s, PreInv s → PreInv (autoFixLoop env rem iter s).st := by
  intro rem
  induction rem with
  | zero => intro iter s hpre; exact hpre
  | succ m ih =>
    intro iter s hpre
    have key := autoFixIter_pre env iter s hpre
    simp only [autoFixLoop]
    cases hit : autoFixIter env iter s with
    | brk s' => rw [hit] at key; exact key
    | raise e s' => rw [hit] at key; exact key
    | cont s' =>
      rw [hit] at key
      exact ih (iter + 1) s' key

theorem phase5_pre (env : PipelineEnv) (cfg : PipelineConfig) (s : PipeSt)
    (hpre : PreInv s) : PreInv (phase5 env cfg s).st := by
  unfold phase5
  cases he : cfg.auto_fix_enabled with
  | false =>
    simp only [he, Bool.false_eq_true, if_neg, not_false_eq_true]
    exact hpre
  | true =>
    simp only [he, if_pos]
    have hemit : PreInv (emit s "Reviewer" "running") := hpre
    have key := autoFixLoop_pre env cfg.max_fix_iterations 0
      (emit s "Reviewer" "running") hemit
    cases hloop : autoFixLoop env cfg.max_fix_iterations 0 (emit s "Reviewer" "running") with
    | ok s' =>
      rw [hloop] at key
      dsimp only
      cases hrr : s'.review_result with
      | none => exact key
      | some rr => exact key
    | early s' => rw [hloop] at key; exact key
    | exn e s' => rw [hloop] at key; exact key

theorem phase6_no_early (env : PipelineEnv) (s : PipeSt) :
    ∀ s5, phase6 env s ≠ POut.early s5 := by
  unfold phase6 emit recCall
  cases h : env.seo with
  | error e => intro s5 heq; exact (nomatch heq)
  | ok r =>
    intro s5 heq
    dsimp only at heq
    exact (nomatch heq)

theorem phase6_pre_exn (env : PipelineEnv) (s : PipeSt) (hpre : PreInv s) :
    ∀ e s', phase6 env s = .exn e s' → PreInv s' := by
  unfold phase6 emit recCall
  cases h : env.seo with
  | error e0 =>
    intro e s' heq
    dsimp only at heq
    cases heq
    exact hpre
  | ok r =>
    intro e s' heq
    dsimp only at heq
    split at heq <;> nomatch heq

/-- Any exception or early return out of the `try:` body leaves the
result with `success = False` and an empty `stages` list. -/
theorem bodyRun_pre (cfg : PipelineConfig) (env : PipelineEnv) (desc : String) :
    (∀ e s, bodyRun cfg env desc = .exn e s → PreInv s) ∧
    (∀ s, bodyRun cfg env desc = .early s → PreInv s) := by
  unfold bodyRun pseq
  have q1 := phase1_pre env desc {} ⟨rfl, rfl⟩
  cases h1 : phase1 env desc {} with
  | early s1 =>
    rw [h1] at q1
    exact ⟨fun e s h => (nomatch h), fun s h => by cases h; exact q1⟩
  | exn e1 s1 =>
    rw [h1] at q1
    exact ⟨fun e s h => by cases h; exact q1, fun s h => (nomatch h)⟩
  | ok s1 =>
    rw [h1] at q1
    dsimp only
    have q2 := phase23_pre env s1 q1
    cases h2 : phase23 env s1 with
    | early s2 =>
      rw [h2] at q2
      exact ⟨fun e s h => (nomatch h), fun s h => by cases h; exact q2⟩
    | exn e2 s2 =>
      rw [h2] at q2
      exact ⟨fun e s h => by cases h; exact q2, fun s h => (nomatch h)⟩
    | ok s2 =>
      rw [h2] at q2
      dsimp only
      have q3 := phase4_pre env desc s2 q2
      cases h3 : phase4 env desc s2 with
      | early s3 =>
        rw [h3] at q3
        exact ⟨fun e s h => (nomatch h), fun s h => by cases h; exact q3⟩
      | exn e3 s3 =>
        rw [h3] at q3
        exact ⟨fun e s h => by cases h; exact q3, fun s h => (nomatch h)⟩
      | ok s3 =>
        rw [h3] at q3
        dsimp only
        have q4 := phase5_pre env cfg s3 q3
        cases h4 : phase5 env cfg s3 with
        | early s4 =>
          rw [h4] at q4
          exact ⟨fun e s h => (nomatch h), fun s h => by cases h; exact q4⟩
        | exn e4 s4 =>
          rw [h4] at q4
          exact ⟨fun e s h => by cases h; exact q4, fun s h => (nomatch h)⟩
        | ok s4 =>
          rw [h4] at q4
          dsimp only
          have q5 := phase6_pre_exn env s4 q4
          cases h5 : phase6 env s4 with
          | early s5 =>
            exact absurd h5 (phase6_no_early env s4 s5)
          | exn e5 s5 =>
            exact ⟨fun e s h => by cases h; exact q5 e5 s5 h5, fun s h => (nomatch h)⟩
          | ok s5 =>
            exact ⟨fun e s h => (nomatch h), fun s h => (nomatch h)⟩

/-- C8: the caller always receives a result value — any exception raised
inside the pipeline body (agent calls included) is caught at the
boundary: the returned result records the exception text as the
run-level error, keeps `success = False`, attaches the stages collected
so far and the elapsed duration, and nothing propagates. -/
theorem pipeline_never_raises (cfg : PipelineConfig) (env : PipelineEnv)
    (desc : String) (e : String) (s : PipeSt)
    (hb : bodyRun cfg env desc = POut.exn e s) :
    pipelineRun cfg env desc
      = ({ s.result with
            error := some e
            stages := s.stages
            total_duration_ms := env.elapsed_ms }, s.trace) ∧
    (pipelineRun cfg env desc).1.success = false ∧
    (pipelineRun cfg env desc).1.error = some e := by
  have hpre := (bodyRun_pre cfg env desc).1 e s hb
  unfold pipelineRun
  rw [hb]
  exact ⟨rfl, hpre.1, rfl⟩

/-- C10: every early-halt return (a failed Strategist, Copywriter, Art
Director or Developer stage) hands back the result object as-is, whose
completed-stages list is still empty — the locally collected stage
records are attached only at final assembly or in the exception
handler. -/
theorem early_halt_stages_empty (cfg : PipelineConfig) (env : PipelineEnv)
    (desc : String) (s : PipeSt)
    (hb : bodyRun cfg env desc = POut.early s) :
    pipelineRun cfg env desc = (s.result, s.trace) ∧
    (pipelineRun cfg env desc).1.stages = [] := by
  have hpre := (bodyRun_pre cfg env desc).2 s hb
  unfold pipelineRun
  rw [hb]
  exact ⟨rfl, hpre.2⟩

/-! ## Stage-status machine machinery (claim C9) -/

/-- Last element of a list, or the default. -/
def lastD (d : String) : List String → String
  | [] => d
  | s :: tl => lastD s tl

theorem runStatuses_append (b : Bool) :
    ∀ l1 cur l2, runStatuses b cur (l1 ++ l2)
      = (runStatuses b cur l1 && runStatuses b (lastD cur l1) l2) := by
  intro l1
  induction l1 with
  | nil => intro cur l2; simp [runStatuses, lastD]
  | cons s tl ih =>
    intro cur l2
    simp [runStatuses, lastD, ih s l2, Bool.and_assoc]

theorem updatesFor_append (a b : List PEvent) (n : String) :
    updatesFor (a ++ b) n = updatesFor a n ++ updatesFor b n := by
  simp [updatesFor]

theorem updatesFor_single_update_eq (n st : String) :
    updatesFor [PEvent.update n st] n = [st] := by
  simp [updatesFor]

theorem updatesFor_single_update_ne (m st n : String) (h : m ≠ n) :
    updatesFor [PEvent.update m st] n = [] := by
  simp [updatesFor, h]

theorem updatesFor_single_call (r : Role) (i : PyVal)
    (o : Except String AgentResult) (n : String) :
    updatesFor [PEvent.call r i o] n = [] := rfl

theorem phase1_updates (env : PipelineEnv) (desc : String) (s : PipeSt) :
    (updatesFor (phase1 env desc s).st.trace "Strategist"
        = updatesFor s.trace "Strategist" ++ ["running", "done"] ∨
     updatesFor (phase1 env desc s).st.trace "Strategist"
        = updatesFor s.trace "Strategist" ++ ["running", "error"] ∨
     updatesFor (phase1 env desc s).st.trace "Strategist"
        = updatesFor s.trace "Strategist" ++ ["running"]) ∧
    (∀ n, n ≠ "Strategist" →
      updatesFor (phase1 env desc s).st.trace n = updatesFor s.trace n) := by
  unfold phase1 emit recCall
  cases h : env.strat with
  | error e =>
    constructor
    · exact Or.inr (Or.inr (by simp [POut.st, updatesFor_append, updatesFor]))
    · intro n hn
      simp [POut.st, updatesFor_append, updatesFor, Ne.symm hn]
  | ok r =>
    dsimp only
    split
    · constructor
      · exact Or.inr (Or.inl (by simp [POut.st, updatesFor_append, updatesFor]))
      · intro n hn
        simp [POut.st, updatesFor_append, updatesFor, Ne.symm hn]
    · constructor
      · exact Or.inl (by simp [POut.st, updatesFor_append, updatesFor])
      · intro n hn
        simp [POut.st, updatesFor_append, updatesFor, Ne.symm hn]

theorem phase23_updates (env : PipelineEnv) (s : PipeSt) :
    (updatesFor (phase23 env s).st.trace "Copywriter"
        = updatesFor s.trace "Copywriter" ++ ["running", "done"] ∨
     updatesFor (phase23 env s).st.trace "Copywriter"
        = updatesFor s.trace "Copywriter" ++ ["running", "error"] ∨
     updatesFor (phase23 env s).st.trace "Copywriter"
        = updatesFor s.trace "Copywriter" ++ ["running"]) ∧
    (updatesFor (phase23 env s).st.trace "Art Director"
        = updatesFor s.trace "Art Director" ++ ["running", "done"] ∨
     updatesFor (phase23 env s).st.trace "Art Director"
        = updatesFor s.trace "Art Director" ++ ["running", "error"] ∨
     updatesFor (phase23 env s).st.trace "Art Director"
        = updatesFor s.trace "Art Director" ++ ["running"]) ∧
    (∀ n, n ≠ "Copywriter" → n ≠ "Art Director" →
      updatesFor (phase23 env s).st.trace n = updatesFor s.trace n) := by
  unfold phase23 emit recCall
  cases hc : env.copyR with
  | error e =>
    refine ⟨Or.inr (Or.inr ?_), Or.inr (Or.inr ?_), fun n hn1 hn2 => ?_⟩
    · simp [POut.st, updatesFor_append, updatesFor]
    · simp [POut.st, updatesFor_append, updatesFor]
    · simp [POut.st, updatesFor_append, updatesFor, Ne.symm hn1, Ne.symm hn2]
  | ok cr =>
    dsimp only
    cases hd : env.design with
    | error e =>
      refine ⟨Or.inr (Or.inr ?_), Or.inr (Or.inr ?_), fun n hn1 hn2 => ?_⟩
      · simp [POut.st, updatesFor_append, updatesFor]
      · simp [POut.st, updatesFor_append, updatesFor]
      · simp [POut.st, updatesFor_append, updatesFor, Ne.symm hn1, Ne.symm hn2]
    | ok dr =>
      dsimp only
      split
      · refine ⟨Or.inr (Or.inl ?_), Or.inr (Or.inr ?_), fun n hn1 hn2 => ?_⟩
        · simp [POut.st, updatesFor_append, updatesFor]
        · simp [POut.st, updatesFor_append, updatesFor]
        · simp [POut.st, updatesFor_append, updatesFor, Ne.symm hn1, Ne.symm hn2]
      · split
        · refine ⟨Or.inr (Or.inr ?_), Or.inr (Or.inl ?_), fun n hn1 hn2 => ?_⟩
          · simp [POut.st, updatesFor_append, updatesFor]
          · simp [POut.st, updatesFor_append, updatesFor]
          · simp [POut.st, updatesFor_append, updatesFor, Ne.symm hn1, Ne.symm hn2]
        · refine ⟨Or.inl ?_, Or.inl ?_, fun n hn1 hn2 => ?_⟩
          · simp [POut.st, updatesFor_append, updatesFor]
          · simp [POut.st, updatesFor_append, updatesFor]
          · simp [POut.st, updatesFor_append, updatesFor, Ne.symm hn1, Ne.symm hn2]

theorem phase4_updates (env : PipelineEnv) (desc : String) (s : PipeSt) :
    (updatesFor (phase4 env desc s).st.trace "Developer"
        = updatesFor s.trace "Developer" ++ ["running", "done"] ∨
     updatesFor (phase4 env desc s).st.trace "Developer"
        = updatesFor s.trace "Developer" ++ ["running", "error"] ∨
     updatesFor (phase4 env desc s).st.trace "Developer"
        = updatesFor s.trace "Developer" ++ ["running"]) ∧
    (∀ s', phase4 env desc s = .ok s' →
      updatesFor s'.trace "Developer"
        = updatesFor s.trace "Developer" ++ ["running", "done"]) ∧
    (∀ n, n ≠ "Developer" →
      updatesFor (phase4 env desc s).st.trace n = updatesFor s.trace n) := by
  unfold phase4 emit recCall
  cases h : env.dev with
  | error e =>
    refine ⟨Or.inr (Or.inr ?_), fun s' h' => (nomatch h'), fun n hn => ?_⟩
    · simp [POut.st, updatesFor_append, updatesFor]
    · simp [POut.st, updatesFor_append, updatesFor, Ne.symm hn]
  | ok r =>
    dsimp only
    split
    · refine ⟨Or.inr (Or.inl ?_), fun s' h' => (nomatch h'), fun n hn => ?_⟩
      · simp [POut.st, updatesFor_append, updatesFor]
      · simp [POut.st, updatesFor_append, updatesFor, Ne.symm hn]
    · refine ⟨Or.inl ?_, fun s' h' => ?_, fun n hn => ?_⟩
      · simp [POut.st, updatesFor_append, updatesFor]
      · cases h'
        simp [updatesFor_append, updatesFor]
      · simp [POut.st, updatesFor_append, updatesFor, Ne.symm hn]

theorem lastD_append (d : String) :
    ∀ l1 l2, lastD d (l1 ++ l2) = lastD (lastD d l1) l2 := by
  intro l1
  induction l1 generalizing d with
  | nil => intro l2; rfl
  | cons s tl ih => intro l2; simp [lastD, ih]

theorem fixPhase_updates (env : PipelineEnv) (iter : Nat) (crit : List PyVal)
    (s : PipeSt) :
    (updatesFor (fixPhase env iter crit s).st.trace "Developer"
        = updatesFor s.trace "Developer" ++ ["running", "done"] ∨
     updatesFor (fixPhase env iter crit s).st.trace "Developer"
        = updatesFor s.trace "Developer" ++ ["running"]) ∧
    (∀ s', fixPhase env iter crit s = .cont s' →
      updatesFor s'.trace "Developer"
        = updatesFor s.trace "Developer" ++ ["running", "done"]) ∧
    (∀ n, n ≠ "Developer" →
      updatesFor (fixPhase env iter crit s).st.trace n = updatesFor s.trace n) := by
  unfold fixPhase emit recCall
  cases hl : issueLines crit with
  | error e =>
    refine ⟨Or.inr ?_, fun s' h' => (nomatch h'), fun n hn => ?_⟩
    · simp [LoopStep.st, updatesFor_append, updatesFor]
    · simp [LoopStep.st, updatesFor_append, updatesFor, Ne.symm hn]
  | ok lns =>
    dsimp only
    cases hf : env.fix iter with
    | error e =>
      refine ⟨Or.inr ?_, fun s' h' => (nomatch h'), fun n hn => ?_⟩
      · simp [LoopStep.st, updatesFor_append, updatesFor]
      · simp [LoopStep.st, updatesFor_append, updatesFor, Ne.symm hn]
    | ok fr =>
      dsimp only
      split
      · refine ⟨Or.inl ?_, fun s' h' => ?_, fun n hn => ?_⟩
        · simp [LoopStep.st, updatesFor_append, updatesFor]
        · cases h'
          simp [updatesFor_append, updatesFor]
        · simp [LoopStep.st, updatesFor_append, updatesFor, Ne.symm hn]
      · refine ⟨Or.inl ?_, fun s' h' => ?_, fun n hn => ?_⟩
        · simp [LoopStep.st, updatesFor_append, updatesFor]
        · cases h'
          simp [updatesFor_append, updatesFor]
        · simp [LoopStep.st, updatesFor_append, updatesFor, Ne.symm hn]

theorem afterReview_updates (env : PipelineEnv) (iter : Nat) (rr : AgentResult)
    (s : PipeSt) :
    (updatesFor (afterReview env iter rr s).st.trace "Developer"
        = updatesFor s.trace "Developer" ++ ["running", "done"] ∨
     updatesFor (afterReview env iter rr s).st.trace "Developer"
        = updatesFor s.trace "Developer" ++ ["running"] ∨
     updatesFor (afterReview env iter rr s).st.trace "Developer"
        = updatesFor s.trace "Developer") ∧
    (∀ s', afterReview env iter rr s = .cont s' →
      updatesFor s'.trace "Developer"
        = updatesFor s.trace "Developer" ++ ["running", "done"]) ∧
    (∀ n, n ≠ "Developer" →
      updatesFor (afterReview env iter rr s).st.trace n = updatesFor s.trace n) := by
  simp only [afterReview]
  cases hp : rr.parsed_output.get "pass" (PyVal.bool false) with
  | error e => exact ⟨Or.inr (Or.inr rfl), fun s' h' => (nomatch h'), fun n hn => rfl⟩
  | ok passV =>
    dsimp only
    by_cases ht : passV.truthy
    · simp only [ht, if_pos]
      exact ⟨Or.inr (Or.inr rfl), fun s' h' => (nomatch h'), fun n hn => rfl⟩
    · simp only [ht, if_neg, Bool.false_eq_true, not_false_eq_true]
      cases hi : rr.parsed_output.get "issues" (PyVal.list []) with
      | error e => exact ⟨Or.inr (Or.inr rfl), fun s' h' => (nomatch h'), fun n hn => rfl⟩
      | ok issuesV =>
        dsimp only
        cases hiter : pyIter issuesV with
        | error e => exact ⟨Or.inr (Or.inr rfl), fun s' h' => (nomatch h'), fun n hn => rfl⟩
        | ok issues =>
          dsimp only
          cases hf : filterActionable issues with
          | error e => exact ⟨Or.inr (Or.inr rfl), fun s' h' => (nomatch h'), fun n hn => rfl⟩
          | ok crit =>
            dsimp only
            by_cases hce : crit.isEmpty
            · simp only [hce, if_pos]
              exact ⟨Or.inr (Or.inr rfl), fun s' h' => (nomatch h'), fun n hn => rfl⟩
            · simp only [hce, if_neg, Bool.false_eq_true, not_false_eq_true]
              have key := fixPhase_updates env iter crit
                { s with result :=
                    { s.result with
                      review_report := some rr.parsed_output
                      fix_iterations := iter + 1 } }
              refine ⟨?_, key.2.1, key.2.2⟩
              rcases key.1 with h | h
              · exact Or.inl h
              · exact Or.inr (Or.inl h)

theorem autoFixIter_updates (env : PipelineEnv) (iter : Nat) (s : PipeSt) :
    (updatesFor (autoFixIter env iter s).st.trace "Developer"
        = updatesFor s.trace "Developer" ++ ["running", "done"] ∨
     updatesFor (autoFixIter env iter s).st.trace "Developer"
        = updatesFor s.trace "Developer" ++ ["running"] ∨
     updatesFor (autoFixIter env iter s).st.trace "Developer"
        = updatesFor s.trace "Developer") ∧
    (∀ s', autoFixIter env iter s = .cont s' →
      updatesFor s'.trace "Developer"
        = updatesFor s.trace "Developer" ++ ["running", "done"]) ∧
    (∀ n, n ≠ "Developer" →
      updatesFor (autoFixIter env iter s).st.trace n = updatesFor s.trace n) := by
  simp only [autoFixIter, recCall]
  cases hrev : env.review iter with
  | error e =>
    exact ⟨Or.inr (Or.inr (by simp [LoopStep.st, updatesFor_append, updatesFor])),
      fun s' h' => (nomatch h'),
      fun n hn => by simp [LoopStep.st, updatesFor_append, updatesFor]⟩
  | ok rr =>
    dsimp only
    by_cases hrs : rr.success = false
    · simp only [hrs, if_pos]
      exact ⟨Or.inr (Or.inr (by simp [LoopStep.st, updatesFor_append, updatesFor])),
        fun s' h' => (nomatch h'),
        fun n hn => by simp [LoopStep.st, updatesFor_append, updatesFor]⟩
    · simp only [hrs, if_neg, Bool.not_eq_false]
      have key := afterReview_updates env iter rr
        { result :=
            { s.result with
              total_tokens := s.result.total_tokens
                + rr.total_input_tokens + rr.total_output_tokens
              total_cost_usd := s.result.total_cost_usd + rr.total_cost_usd }
          stages := s.stages
          html := s.html
          review_result := some rr
          trace := s.trace ++ [PEvent.call (Role.reviewer iter) s.html (Except.ok rr)] }
      have htr : updatesFor (s.trace
          ++ [PEvent.call (Role.reviewer iter) s.html (Except.ok rr)])
          = fun n => updatesFor s.trace n := by
        funext n
        simp [updatesFor_append, updatesFor]
      constructor
      · rcases key.1 with h | h | h <;>
          [exact Or.inl (by rw [h]; rw [congrFun htr "Developer"]);
           exact Or.inr (Or.inl (by rw [h]; rw [congrFun htr "Developer"]));
           exact Or.inr (Or.inr (by rw [h]; rw [congrFun htr "Developer"]))]
      constructor
      · intro s' h'
        have := key.2.1 s' h'
        rw [this, congrFun htr "Developer"]
      · intro n hn
        rw [key.2.2 n hn, congrFun htr n]

theorem autoFixLoop_updates (env : PipelineEnv) :
    ∀ rem iter s,
      (runStatuses true "waiting" (updatesFor s.trace "Developer") = true →
       lastD "waiting" (updatesFor s.trace "Developer") = "done" →
       runStatuses true "waiting"
         (updatesFor (autoFixLoop env rem iter s).st.trace "Developer") = true) ∧
      (∀ n, n ≠ "Developer" →
        updatesFor (autoFixLoop env rem iter s).st.trace n = updatesFor s.trace n) := by
  intro rem
  induction rem with
  | zero => intro iter s; exact ⟨fun h _ => h, fun n hn => rfl⟩
  | succ m ih =>
    intro iter s
    have key := autoFixIter_updates env iter s
    simp only [autoFixLoop]
    cases hit : autoFixIter env iter s with
    | brk s' =>
      rw [hit] at key
      simp only [LoopStep.st] at key
      dsimp only [POut.st]
      refine ⟨fun hv hl => ?_, key.2.2⟩
      rcases key.1 with h | h | h <;> rw [h] <;>
        simp [runStatuses_append, hv, hl, stepAllowed, runStatuses]
    | raise e s' =>
      rw [hit] at key
      simp only [LoopStep.st] at key
      dsimp only [POut.st]
      refine ⟨fun hv hl => ?_, key.2.2⟩
      rcases key.1 with h | h | h <;> rw [h] <;>
        simp [runStatuses_append, hv, hl, stepAllowed, runStatuses]
    | cont s' =>
      rw [hit] at key
      simp only [LoopStep.st] at key
      dsimp only [POut.st]
      have hdev := key.2.1 s' rfl
      have h' := ih (iter + 1) s'
      simp only [POut.st] at h'
      refine ⟨fun hv hl => ?_, fun n hn => by rw [h'.2 n hn, key.2.2 n hn]⟩
      refine h'.1 ?_ ?_
      · rw [hdev]
        simp [runStatuses_append, hv, hl, stepAllowed, runStatuses]
      · rw [hdev, lastD_append, hl]
        rfl

theorem phase5_updates (env : PipelineEnv) (cfg : PipelineConfig) (s : PipeSt) :
    (runStatuses true "waiting" (updatesFor s.trace "Developer") = true →
     lastD "waiting" (updatesFor s.trace "Developer") = "done" →
     runStatuses true "waiting"
       (updatesFor (phase5 env cfg s).st.trace "Developer") = true) ∧
    (updatesFor s.trace "Reviewer" = [] →
     runStatuses false "waiting"
       (updatesFor (phase5 env cfg s).st.trace "Reviewer") = true) ∧
    (∀ n, n ≠ "Developer" → n ≠ "Reviewer" →
      updatesFor (phase5 env cfg s).st.trace n = updatesFor s.trace n) := by
  unfold phase5
  cases he : cfg.auto_fix_enabled with
  | false =>
    simp only [he, Bool.false_eq_true, if_neg, not_false_eq_true]
    dsimp only [POut.st]
    exact ⟨fun hv _ => hv, fun hr => by rw [hr]; rfl, fun n _ _ => rfl⟩
  | true =>
    simp only [he, if_pos]
    have hed : updatesFor (emit s "Reviewer" "running").trace "Developer"
        = updatesFor s.trace "Developer" := by
      simp [emit, updatesFor_append, updatesFor]
    have her : updatesFor (emit s "Reviewer" "running").trace "Reviewer"
        = updatesFor s.trace "Reviewer" ++ ["running"] := by
      simp [emit, updatesFor_append, updatesFor]
    have hen : ∀ n, n ≠ "Reviewer" →
        updatesFor (emit s "Reviewer" "running").trace n = updatesFor s.trace n := by
      intro n hn
      simp [emit, updatesFor_append, updatesFor, Ne.symm hn]
    have key := autoFixLoop_updates env cfg.max_fix_iterations 0
      (emit s "Reviewer" "running")
    cases hloop : autoFixLoop env cfg.max_fix_iterations 0 (emit s "Reviewer" "running") with
    | ok s' =>
      rw [hloop] at key
      simp only [POut.st] at key
      dsimp only
      cases hrr : s'.review_result with
      | none =>
        dsimp only [POut.st]
        refine ⟨fun hv hl => key.1 (by rw [hed]; exact hv) (by rw [hed]; exact hl),
          fun hrev => ?_, fun n hn1 hn2 => by rw [key.2 n hn1, hen n hn2]⟩
        rw [key.2 "Reviewer" (by decide), her, hrev]
        decide
      | some rr =>
        dsimp only [POut.st]
        refine ⟨fun hv hl => ?_, fun hrev => ?_, fun n hn1 hn2 => ?_⟩
        · simp only [emit, updatesFor_append]
          simp [updatesFor]
          exact key.1 (by rw [hed]; exact hv) (by rw [hed]; exact hl)
        · simp only [emit, updatesFor_append]
          have hone : updatesFor [PEvent.update "Reviewer" "done"] "Reviewer"
              = ["done"] := by simp [updatesFor]
          rw [hone]
          show runStatuses false "waiting"
            (updatesFor s'.trace "Reviewer" ++ ["done"]) = true
          rw [key.2 "Reviewer" (by decide), her, hrev]
          decide
        · simp only [emit, updatesFor_append]
          have hz : updatesFor [PEvent.update "Reviewer" "done"] n = [] := by
            simp [updatesFor, Ne.symm hn2]
          rw [hz, List.append_nil]
          show updatesFor s'.trace n = updatesFor s.trace n
          rw [key.2 n hn1, hen n hn2]
    | early s' =>
      rw [hloop] at key
      simp only [POut.st] at key
      dsimp only [POut.st]
      refine ⟨fun hv hl => key.1 (by rw [hed]; exact hv) (by rw [hed]; exact hl),
        fun hrev => ?_, fun n hn1 hn2 => by rw [key.2 n hn1, hen n hn2]⟩
      rw [key.2 "Reviewer" (by decide), her, hrev]
      decide
    | exn e s' =>
      rw [hloop] at key
      simp only [POut.st] at key
      dsimp only [POut.st]
      refine ⟨fun hv hl => key.1 (by rw [hed]; exact hv) (by rw [hed]; exact hl),
        fun hrev => ?_, fun n hn1 hn2 => by rw [key.2 n hn1, hen n hn2]⟩
      rw [key.2 "Reviewer" (by decide), her, hrev]
      decide

theorem phase6_updates (env : PipelineEnv) (s : PipeSt) :
    (updatesFor s.trace "SEO Optimizer" = [] →
     runStatuses false "waiting"
       (updatesFor (phase6 env s).st.trace "SEO Optimizer") = true) ∧
    (∀ n, n ≠ "SEO Optimizer" →
      updatesFor (phase6 env s).st.trace n = updatesFor s.trace n) := by
  unfold phase6 emit recCall
  cases h : env.seo with
  | error e =>
    refine ⟨fun hs => ?_, fun n hn => ?_⟩
    · show runStatuses false "waiting"
        (updatesFor ((s.trace ++ [PEvent.update "SEO Optimizer" "running"])
          ++ [PEvent.call Role.seo s.html (Except.error e)]) "SEO Optimizer") = true
      rw [updatesFor_append, updatesFor_append, hs,
        updatesFor_single_update_eq, updatesFor_single_call]
      decide
    · show updatesFor ((s.trace ++ [PEvent.update "SEO Optimizer" "running"])
          ++ [PEvent.call Role.seo s.html (Except.error e)]) n = updatesFor s.trace n
      rw [updatesFor_append, updatesFor_append,
        updatesFor_single_update_ne _ _ _ (Ne.symm hn), updatesFor_single_call]
      simp
  | ok r =>
    dsimp only
    split
    · refine ⟨fun hs => ?_, fun n hn => ?_⟩
      · show runStatuses false "waiting"
          (updatesFor (((s.trace ++ [PEvent.update "SEO Optimizer" "running"])
            ++ [PEvent.call Role.seo s.html (Except.ok r)])
            ++ [PEvent.update "SEO Optimizer" "done"]) "SEO Optimizer") = true
        rw [updatesFor_append, updatesFor_append, updatesFor_append, hs,
          updatesFor_single_update_eq, updatesFor_single_update_eq, updatesFor_single_call]
        decide
      · show updatesFor (((s.trace ++ [PEvent.update "SEO Optimizer" "running"])
            ++ [PEvent.call Role.seo s.html (Except.ok r)])
            ++ [PEvent.update "SEO Optimizer" "done"]) n = updatesFor s.trace n
        rw [updatesFor_append, updatesFor_append, updatesFor_append,
          updatesFor_single_update_ne _ _ _ (Ne.symm hn),
          updatesFor_single_update_ne _ _ _ (Ne.symm hn), updatesFor_single_call]
        simp
    · refine ⟨fun hs => ?_, fun n hn => ?_⟩
      · show runStatuses false "waiting"
          (updatesFor (((s.trace ++ [PEvent.update "SEO Optimizer" "running"])
            ++ [PEvent.call Role.seo s.html (Except.ok r)])
            ++ [PEvent.update "SEO Optimizer" "done"]) "SEO Optimizer") = true
        rw [updatesFor_append, updatesFor_append, updatesFor_append, hs,
          updatesFor_single_update_eq, updatesFor_single_update_eq, updatesFor_single_call]
        decide
      · show updatesFor (((s.trace ++ [PEvent.update "SEO Optimizer" "running"])
            ++ [PEvent.call Role.seo s.html (Except.ok r)])
            ++ [PEvent.update "SEO Optimizer" "done"]) n = updatesFor s.trace n
        rw [updatesFor_append, updatesFor_append, updatesFor_append,
          updatesFor_single_update_ne _ _ _ (Ne.symm hn),
          updatesFor_single_update_ne _ _ _ (Ne.symm hn), updatesFor_single_call]
        simp

theorem pipelineRun_trace (cfg : PipelineConfig) (env : PipelineEnv) (desc : String) :
    (pipelineRun cfg env desc).2 = (bodyRun cfg env desc).st.trace := by
  unfold pipelineRun
  cases hb : bodyRun cfg env desc <;> rfl

theorem statusOk_of_facts (tr : List PEvent)
    (hS : runStatuses false "waiting" (updatesFor tr "Strategist") = true)
    (hC : runStatuses false "waiting" (updatesFor tr "Copywriter") = true)
    (hA : runStatuses false "waiting" (updatesFor tr "Art Director") = true)
    (hR : runStatuses false "waiting" (updatesFor tr "Reviewer") = true)
    (hO : runStatuses false "waiting" (updatesFor tr "SEO Optimizer") = true)
    (hother : ∀ n, n ≠ "Strategist" → n ≠ "Copywriter" → n ≠ "Art Director" →
      n ≠ "Developer" → n ≠ "Reviewer" → n ≠ "SEO Optimizer" → updatesFor tr n = [])
    (hD : runStatuses true "waiting" (updatesFor tr "Developer") = true) :
    (∀ name, name ≠ "Developer" →
      runStatuses false "waiting" (updatesFor tr name) = true) ∧
    runStatuses true "waiting" (updatesFor tr "Developer") = true := by
  refine ⟨fun name hnd => ?_, hD⟩
  by_cases h1 : name = "Strategist"
  · subst h1; exact hS
  by_cases h2 : name = "Copywriter"
  · subst h2; exact hC
  by_cases h3 : name = "Art Director"
  · subst h3; exact hA
  by_cases h4 : name = "Reviewer"
  · subst h4; exact hR
  by_cases h5 : name = "SEO Optimizer"
  · subst h5; exact hO
  rw [hother name h1 h2 h3 hnd h4 h5]
  rfl

/-- C9 (amended): every stage's reported status sequence follows the
4-state machine — for all stages except the Developer the plain machine
(waiting→running→done/error), and for the Developer the machine extended
with the redispatch transition done→running, which the corrective loop
performs once per producer re-invocation. -/
theorem stage_status_machine (cfg : PipelineConfig) (env : PipelineEnv) (desc : String) :
    (∀ name, name ≠ "Developer" →
      runStatuses false "waiting"
        (updatesFor (pipelineRun cfg env desc).2 name) = true) ∧
    runStatuses true "waiting"
      (updatesFor (pipelineRun cfg env desc).2 "Developer") = true := by
  rw [pipelineRun_trace]
  unfold bodyRun pseq
  have base : ∀ n, updatesFor ({} : PipeSt).trace n = [] := fun _ => rfl
  have u1 := phase1_updates env desc {}
  cases h1 : phase1 env desc {} with
  | early s1 =>
    rw [h1] at u1
    simp only [POut.st] at u1
    dsimp only [POut.st]
    refine statusOk_of_facts s1.trace ?_ ?_ ?_ ?_ ?_ ?_ ?_
    · rcases u1.1 with h | h | h <;> rw [h, base] <;> decide
    · rw [u1.2 "Copywriter" (by decide), base]
      decide
    · rw [u1.2 "Art Director" (by decide), base]
      decide
    · rw [u1.2 "Reviewer" (by decide), base]
      decide
    · rw [u1.2 "SEO Optimizer" (by decide), base]
      decide
    · intro n n1 _ _ _ _ _; rw [u1.2 n n1, base]
    · rw [u1.2 "Developer" (by decide), base]
      decide
  | exn e1 s1 =>
    rw [h1] at u1
    simp only [POut.st] at u1
    dsimp only [POut.st]
    refine statusOk_of_facts s1.trace ?_ ?_ ?_ ?_ ?_ ?_ ?_
    · rcases u1.1 with h | h | h <;> rw [h, base] <;> decide
    · rw [u1.2 "Copywriter" (by decide), base]
      decide
    · rw [u1.2 "Art Director" (by decide), base]
      decide
    · rw [u1.2 "Reviewer" (by decide), base]
      decide
    · rw [u1.2 "SEO Optimizer" (by decide), base]
      decide
    · intro n n1 _ _ _ _ _; rw [u1.2 n n1, base]
    · rw [u1.2 "Developer" (by decide), base]
      decide
  | ok s1 =>
    rw [h1] at u1
    simp only [POut.st] at u1
    dsimp only
    have u23 := phase23_updates env s1
    cases h2 : phase23 env s1 with
    | early s2 =>
      rw [h2] at u23
      simp only [POut.st] at u23
      dsimp only [POut.st]
      refine statusOk_of_facts s2.trace ?_ ?_ ?_ ?_ ?_ ?_ ?_
      · rw [u23.2.2 "Strategist" (by decide) (by decide)]
        rcases u1.1 with h | h | h <;> rw [h, base] <;> decide
      · rcases u23.1 with h | h | h <;>
          rw [h, u1.2 "Copywriter" (by decide), base] <;> decide
      · rcases u23.2.1 with h | h | h <;>
          rw [h, u1.2 "Art Director" (by decide), base] <;> decide
      · rw [u23.2.2 "Reviewer" (by decide) (by decide),
          u1.2 "Reviewer" (by decide), base]
        decide
      · rw [u23.2.2 "SEO Optimizer" (by decide) (by decide),
          u1.2 "SEO Optimizer" (by decide), base]
        decide
      · intro n n1 n2 n3 _ _ _
        rw [u23.2.2 n n2 n3, u1.2 n n1, base]
      · rw [u23.2.2 "Developer" (by decide) (by decide),
          u1.2 "Developer" (by decide), base]
        decide
    | exn e2 s2 =>
      rw [h2] at u23
      simp only [POut.st] at u23
      dsimp only [POut.st]
      refine statusOk_of_facts s2.trace ?_ ?_ ?_ ?_ ?_ ?_ ?_
      · rw [u23.2.2 "Strategist" (by decide) (by decide)]
        rcases u1.1 with h | h | h <;> rw [h, base] <;> decide
      · rcases u23.1 with h | h | h <;>
          rw [h, u1.2 "Copywriter" (by decide), base] <;> decide
      · rcases u23.2.1 with h | h | h <;>
          rw [h, u1.2 "Art Director" (by decide), base] <;> decide
      · rw [u23.2.2 "Reviewer" (by decide) (by decide),
          u1.2 "Reviewer" (by decide), base]
        decide
      · rw [u23.2.2 "SEO Optimizer" (by decide) (by decide),
          u1.2 "SEO Optimizer" (by decide), base]
        decide
      · intro n n1 n2 n3 _ _ _
        rw [u23.2.2 n n2 n3, u1.2 n n1, base]
      · rw [u23.2.2 "Developer" (by decide) (by decide),
          u1.2 "Developer" (by decide), base]
        decide
    | ok s2 =>
      rw [h2] at u23
      simp only [POut.st] at u23
      dsimp only
      have u3 := phase4_updates env desc s2
      cases h3 : phase4 env desc s2 with
      | early s3 =>
        rw [h3] at u3
        simp only [POut.st] at u3
        dsimp only [POut.st]
        refine statusOk_of_facts s3.trace ?_ ?_ ?_ ?_ ?_ ?_ ?_
        · rw [u3.2.2 "Strategist" (by decide),
            u23.2.2 "Strategist" (by decide) (by decide)]
          rcases u1.1 with h | h | h <;> rw [h, base] <;> decide
        · rw [u3.2.2 "Copywriter" (by decide)]
          rcases u23.1 with h | h | h <;>
            rw [h, u1.2 "Copywriter" (by decide), base] <;> decide
        · rw [u3.2.2 "Art Director" (by decide)]
          rcases u23.2.1 with h | h | h <;>
            rw [h, u1.2 "Art Director" (by decide), base] <;> decide
        · rw [u3.2.2 "Reviewer" (by decide),
            u23.2.2 "Reviewer" (by decide) (by decide),
            u1.2 "Reviewer" (by decide), base]
          decide
        · rw [u3.2.2 "SEO Optimizer" (by decide),
            u23.2.2 "SEO Optimizer" (by decide) (by decide),
            u1.2 "SEO Optimizer" (by decide), base]
          decide
        · intro n n1 n2 n3 n4 _ _
          rw [u3.2.2 n n4, u23.2.2 n n2 n3, u1.2 n n1, base]
        · rcases u3.1 with h | h | h <;>
            rw [h, u23.2.2 "Developer" (by decide) (by decide),
              u1.2 "Developer" (by decide), base] <;> decide
      | exn e3 s3 =>
        rw [h3] at u3
        simp only [POut.st] at u3
        dsimp only [POut.st]
        refine statusOk_of_facts s3.trace ?_ ?_ ?_ ?_ ?_ ?_ ?_
        · rw [u3.2.2 "Strategist" (by decide),
            u23.2.2 "Strategist" (by decide) (by decide)]
          rcases u1.1 with h | h | h <;> rw [h, base] <;> decide
        · rw [u3.2.2 "Copywriter" (by decide)]
          rcases u23.1 with h | h | h <;>
            rw [h, u1.2 "Copywriter" (by decide), base] <;> decide
        · rw [u3.2.2 "Art Director" (by decide)]
          rcases u23.2.1 with h | h | h <;>
            rw [h, u1.2 "Art Director" (by decide), base] <;> decide
        · rw [u3.2.2 "Reviewer" (by decide),
            u23.2.2 "Reviewer" (by decide) (by decide),
            u1.2 "Reviewer" (by decide), base]
          decide
        · rw [u3.2.2 "SEO Optimizer" (by decide),
            u23.2.2 "SEO Optimizer" (by decide) (by decide),
            u1.2 "SEO Optimizer" (by decide), base]
          decide
        · intro n n1 n2 n3 n4 _ _
          rw [u3.2.2 n n4, u23.2.2 n n2 n3, u1.2 n n1, base]
        · rcases u3.1 with h | h | h <;>
            rw [h, u23.2.2 "Developer" (by decide) (by decide),
              u1.2 "Developer" (by decide), base] <;> decide
      | ok s3 =>
        have hdev3 : updatesFor s3.trace "Developer" = ["running", "done"] := by
          rw [u3.2.1 s3 h3, u23.2.2 "Developer" (by decide) (by decide),
            u1.2 "Developer" (by decide), base]
          rfl
        rw [h3] at u3
        simp only [POut.st] at u3
        dsimp only
        have hstrat3 : runStatuses false "waiting"
            (updatesFor s3.trace "Strategist") = true := by
          rw [u3.2.2 "Strategist" (by decide),
            u23.2.2 "Strategist" (by decide) (by decide)]
          rcases u1.1 with h | h | h <;> rw [h, base] <;> decide
        have hcopy3 : runStatuses false "waiting"
            (updatesFor s3.trace "Copywriter") = true := by
          rw [u3.2.2 "Copywriter" (by decide)]
          rcases u23.1 with h | h | h <;>
            rw [h, u1.2 "Copywriter" (by decide), base] <;> decide
        have hart3 : runStatuses false "waiting"
            (updatesFor s3.trace "Art Director") = true := by
          rw [u3.2.2 "Art Director" (by decide)]
          rcases u23.2.1 with h | h | h <;>
            rw [h, u1.2 "Art Director" (by decide), base] <;> decide
        have hrev3 : updatesFor s3.trace "Reviewer" = [] := by
          rw [u3.2.2 "Reviewer" (by decide),
            u23.2.2 "Reviewer" (by decide) (by decide),
            u1.2 "Reviewer" (by decide), base]
        have hseo3 : updatesFor s3.trace "SEO Optimizer" = [] := by
          rw [u3.2.2 "SEO Optimizer" (by decide),
            u23.2.2 "SEO Optimizer" (by decide) (by decide),
            u1.2 "SEO Optimizer" (by decide), base]
        have hoth3 : ∀ n, n ≠ "Strategist" → n ≠ "Copywriter" →
            n ≠ "Art Director" → n ≠ "Developer" → n ≠ "Reviewer" →
            n ≠ "SEO Optimizer" → updatesFor s3.trace n = [] := by
          intro n n1 n2 n3 n4 _ _
          rw [u3.2.2 n n4, u23.2.2 n n2 n3, u1.2 n n1, base]
        have u5 := phase5_updates env cfg s3
        cases h5 : phase5 env cfg s3 with
        | ok s4 =>
          rw [h5] at u5
          simp only [POut.st] at u5
          dsimp only
          have u6 := phase6_updates env s4
          refine statusOk_of_facts (phase6 env s4).st.trace ?_ ?_ ?_ ?_ ?_ ?_ ?_
          · rw [u6.2 "Strategist" (by decide),
              u5.2.2 "Strategist" (by decide) (by decide)]
            exact hstrat3
          · rw [u6.2 "Copywriter" (by decide),
              u5.2.2 "Copywriter" (by decide) (by decide)]
            exact hcopy3
          · rw [u6.2 "Art Director" (by decide),
              u5.2.2 "Art Director" (by decide) (by decide)]
            exact hart3
          · rw [u6.2 "Reviewer" (by decide)]
            exact u5.2.1 hrev3
          · refine u6.1 ?_
            rw [u5.2.2 "SEO Optimizer" (by decide) (by decide)]
            exact hseo3
          · intro n n1 n2 n3 n4 n5 n6
            rw [u6.2 n n6, u5.2.2 n n4 n5]
            exact hoth3 n n1 n2 n3 n4 n5 n6
          · rw [u6.2 "Developer" (by decide)]
            exact u5.1 (by rw [hdev3]; decide) (by rw [hdev3]; rfl)
        | early s4 =>
          rw [h5] at u5
          simp only [POut.st] at u5
          dsimp only [POut.st]
          refine statusOk_of_facts s4.trace ?_ ?_ ?_ ?_ ?_ ?_ ?_
          · rw [u5.2.2 "Strategist" (by decide) (by decide)]
            exact hstrat3
          · rw [u5.2.2 "Copywriter" (by decide) (by decide)]
            exact hcopy3
          · rw [u5.2.2 "Art Director" (by decide) (by decide)]
            exact hart3
          · exact u5.2.1 hrev3
          · rw [u5.2.2 "SEO Optimizer" (by decide) (by decide), hseo3]
            decide
          · intro n n1 n2 n3 n4 n5 n6
            rw [u5.2.2 n n4 n5]
            exact hoth3 n n1 n2 n3 n4 n5 n6
          · exact u5.1 (by rw [hdev3]; decide) (by rw [hdev3]; rfl)
        | exn e5 s4 =>
          rw [h5] at u5
          simp only [POut.st] at u5
          dsimp only [POut.st]
          refine statusOk_of_facts s4.trace ?_ ?_ ?_ ?_ ?_ ?_ ?_
          · rw [u5.2.2 "Strategist" (by decide) (by decide)]
            exact hstrat3
          · rw [u5.2.2 "Copywriter" (by decide) (by decide)]
            exact hcopy3
          · rw [u5.2.2 "Art Director" (by decide) (by decide)]
            exact hart3
          · exact u5.2.1 hrev3
          · rw [u5.2.2 "SEO Optimizer" (by decide) (by decide), hseo3]
            decide
          · intro n n1 n2 n3 n4 n5 n6
            rw [u5.2.2 n n4 n5]
            exact hoth3 n n1 n2 n3 n4 n5 n6
          · exact u5.1 (by rw [hdev3]; decide) (by rw [hdev3]; rfl)

/-! ### Concrete pipeline environments used by counterexamples and witnesses -/

/-- A successful `AgentResult` with the given usage and parsed value. -/
def mkOk (nm : String) (ti to_ : Nat) (c : ℚ) (pv : PyVal) : AgentResult :=
  { agent_name := nm, raw_text := "raw", parsed_output := pv, success := true,
    total_input_tokens := ti, total_output_tokens := to_, total_cost_usd := c,
    total_latency_ms := 5 }

/-- A checker report whose verdict is "pass". -/
def passReport : PyVal := .dict [("pass", .bool true), ("score", .int 95)]

/-- One critical, actionable checker defect. -/
def cxIssue : PyVal :=
  .dict [("severity", .str "critical"),
    ("description", .str "bad contrast"),
    ("fix_suggestion", .str "increase it")]

/-- A checker report with verdict "fail" and one critical actionable
defect. -/
def failReport : PyVal :=
  .dict [("pass", .bool false), ("issues", .list [cxIssue])]

/-- The checker outcome used by the loop counterexample and witness. -/
def cxReviewFail : AgentResult := mkOk "Reviewer" 10 10 1 failReport

/-- The corrective-re-invocation outcome used by the loop witness. -/
def cxFix : AgentResult := mkOk "Developer" 1024 2048 32 (.str "<html>2</html>")

/-- Every stage succeeds and the checker passes on its first invocation. -/
def cxEnvAllOk : PipelineEnv :=
  { strat := .ok (mkOk "Strategist" 1 2 1 (.str "strategy"))
    copyR := .ok (mkOk "Copywriter" 4 8 2 (.str "copytext"))
    design := .ok (mkOk "Art Director" 16 32 4 (.dict [("primary_color", .str "#fff")]))
    dev := .ok (mkOk "Developer" 64 128 8 (.str "<html>1</html>"))
    review := fun _ => .ok (mkOk "Reviewer" 256 512 16 passReport)
    fix := fun _ => .ok (mkOk "Developer" 1024 2048 32 (.str "<html>2</html>"))
    seo := .ok (mkOk "SEO Optimizer" 4096 8192 64 (.str "<html>seo</html>"))
    elapsed_ms := 1000 }

/-- A failed strategist outcome that nevertheless consumed 10 tokens. -/
def cxFailedStrat : AgentResult :=
  { agent_name := "Strategist", raw_text := "", success := false,
    error := some "boom", total_input_tokens := 7, total_output_tokens := 3,
    total_cost_usd := 9 }

/-- The strategist fails; the rest behaves as in `cxEnvAllOk`. -/
def cxEnvStratFail : PipelineEnv :=
  { cxEnvAllOk with strat := .ok cxFailedStrat }

/-- The checker always reports "fail" with one critical defect. -/
def cxEnvLoop : PipelineEnv :=
  { cxEnvAllOk with review := fun _ => .ok cxReviewFail }

/-- C1 counterexample: when the Strategist fails, the run returns token
total 0 although an `AgentOutcome` with 10 tokens was produced — the
totals do not equal the sum over every outcome produced during the run. -/
theorem pipeline_totals_drop_failed_outcomes :
    (pipelineRun {} cxEnvStratFail "d").1.total_tokens = 0 ∧
    allTokens (pipelineRun {} cxEnvStratFail "d").2 = 10 := by
  constructor <;> decide

/-- C2 counterexample: with a checker that passes on its first
invocation, the counter is 1 — not 0 — while the number of producer
re-invocations is 0, so the counter does not count producer
re-invocations and is not zero on a first-pass checker. -/
theorem fix_iterations_one_on_first_pass :
    (pipelineRun {} cxEnvAllOk "d").1.fix_iterations = 1 ∧
    countDevFixCalls (pipelineRun {} cxEnvAllOk "d").2 = 0 := by
  constructor <;> decide

/-- C7 counterexample: with the corrective loop enabled and the
configured maximum equal to 0, the run does not proceed to completion —
referencing the unbound `review_result` after the zero-iteration loop
raises, and the caught exception yields `success=False`. -/
theorem loop_zero_max_fails_run :
    (pipelineRun { auto_fix_enabled := true, max_fix_iterations := 0 }
      cxEnvAllOk "d").1.success = false ∧
    (pipelineRun { auto_fix_enabled := true, max_fix_iterations := 0 }
      cxEnvAllOk "d").1.error
      = some "UnboundLocalError: local variable review_result referenced before assignment" := by
  constructor <;> decide

/-- C9 counterexample: in a run with a corrective re-invocation, the
Developer stage is re-dispatched after reaching `done`, so its emitted
status sequence violates the plain 4-state machine (which has no
`done → running` transition). -/
theorem developer_status_redispatch :
    runStatuses false "waiting"
      (updatesFor (pipelineRun {} cxEnvLoop "d").2 "Developer") = false ∧
    updatesFor (pipelineRun {} cxEnvLoop "d").2 "Developer"
      = ["running", "done", "running", "done", "running", "done", "running", "done"] := by
  constructor <;> decide

theorem fix_iterations_counts_checker_successes_witness :
    (pipelineRun { auto_fix_enabled := false } cxEnvAllOk "d").1.fix_iterations
      = countSuccReviews (pipelineRun { auto_fix_enabled := false } cxEnvAllOk "d").2 ∧
    (pipelineRun { auto_fix_enabled := false } cxEnvAllOk "d").1.fix_iterations
      ≤ ({ auto_fix_enabled := false } : PipelineConfig).max_fix_iterations ∧
    (({ auto_fix_enabled := false } : PipelineConfig).auto_fix_enabled = false →
      (pipelineRun { auto_fix_enabled := false } cxEnvAllOk "d").1.fix_iterations = 0) :=
  fix_iterations_counts_checker_successes { auto_fix_enabled := false } cxEnvAllOk "d"

theorem loop_bound_exact_reinvocations_witness :
    (pipelineRun {} cxEnvLoop "d").1.success = true ∧
    countDevFixCalls (pipelineRun {} cxEnvLoop "d").2
      = ({} : PipelineConfig).max_fix_iterations ∧
    seoInput (pipelineRun {} cxEnvLoop "d").2
      = some (cxFix.parsed_output) :=
  loop_bound_exact_reinvocations {} cxEnvLoop "d"
    (fun _ => cxReviewFail) (fun _ => cxFix)
    ⟨fun _ => rfl, fun _ => rfl,
      fun _ => ⟨.bool false, rfl, rfl⟩,
      fun _ => ⟨.list [cxIssue], [cxIssue], [cxIssue],
        ["- [CRITICAL] bad contrast: increase it"], rfl, rfl, rfl, rfl, rfl⟩,
      fun _ => rfl, fun _ => rfl⟩
    rfl (by decide)
    (mkOk "Strategist" 1 2 1 (.str "strategy"))
    (mkOk "Copywriter" 4 8 2 (.str "copytext"))
    (mkOk "Art Director" 16 32 4 (.dict [("primary_color", .str "#fff")]))
    (mkOk "Developer" 64 128 8 (.str "<html>1</html>"))
    (mkOk "SEO Optimizer" 4096 8192 64 (.str "<html>seo</html>"))
    rfl rfl rfl rfl rfl rfl rfl rfl rfl

/-- The Strategist provider call raises; the rest behaves as in
`cxEnvAllOk`. -/
def cxEnvStratRaise : PipelineEnv :=
  { cxEnvAllOk with strat := .error "agent blew up" }

theorem pipeline_never_raises_witness :
    pipelineRun {} cxEnvStratRaise "d"
      = ({ (bodyRun {} cxEnvStratRaise "d").st.result with
            error := some "agent blew up"
            stages := (bodyRun {} cxEnvStratRaise "d").st.stages
            total_duration_ms := cxEnvStratRaise.elapsed_ms },
          (bodyRun {} cxEnvStratRaise "d").st.trace) ∧
    (pipelineRun {} cxEnvStratRaise "d").1.success = false ∧
    (pipelineRun {} cxEnvStratRaise "d").1.error = some "agent blew up" :=
  pipeline_never_raises {} cxEnvStratRaise "d" "agent blew up"
    (bodyRun {} cxEnvStratRaise "d").st rfl

theorem early_halt_stages_empty_witness :
    pipelineRun {} cxEnvStratFail "d"
      = ((bodyRun {} cxEnvStratFail "d").st.result,
          (bodyRun {} cxEnvStratFail "d").st.trace) ∧
    (pipelineRun {} cxEnvStratFail "d").1.stages = [] :=
  early_halt_stages_empty {} cxEnvStratFail "d"
    (bodyRun {} cxEnvStratFail "d").st rfl

theorem stage_status_machine_witness :
    runStatuses false "waiting"
      (updatesFor (pipelineRun {} cxEnvAllOk "d").2 "Strategist") = true ∧
    runStatuses true "waiting"
      (updatesFor (pipelineRun {} cxEnvAllOk "d").2 "Developer") = true :=
  ⟨(stage_status_machine {} cxEnvAllOk "d").1 "Strategist" (by decide),
   (stage_status_machine {} cxEnvAllOk "d").2⟩

end AIWB
